import Mathlib

/-!
Verification development for the 1.21.4BRIDGE_CROSSING repository: a shallow
embedding of `src/random_source.py`, `src/fortress_locator.py`,
`src/fortress_generator.py` and `src/crossing_detector.py`, followed by
theorems settling the specification claims.

Conventions of the embedding:
* Python integers are `Nat`/`Int`; every place where the source masks with
  `& ((1 << w) - 1)` is embedded as `% 2 ^ w` (equal on naturals, and equal to
  the low `w` bits of a two's-complement integer via `Int.emod` for the
  signed cases).
* Python `x ^ y` (xor, possibly on negative integers) followed by a
  `& ((1 << w) - 1)` mask is embedded as `Nat.xor` of the operands'
  `2 ^ w` residues, which is exactly the low `w` bits of the two's-complement
  xor.
* Python `math.floor(a / b)` and `a // b` on integers are embedded as
  `Int.fdiv` (mathematical floor division), which is what the float detour in
  `fortress_locator.py` computes on the 32-bit chunk coordinates the program
  works with.
* Mutation of `self` in the generator class becomes explicit state passing
  through `GenState`; the unbounded `while` loops get fuel.
-/

namespace Fortress

/-! ### random_source.py : LegacyRandomSource / WorldgenRandom -/

def MULTIPLIER : Nat := 25214903917

def INCREMENT : Nat := 11

/-- The RNG internal state is the 48-bit `_seed`; `advance` is the LCG step
`self._seed = (self._seed * self.MULTIPLIER + self.INCREMENT) & self.MODULUS_MASK`. -/
def advance (s : Nat) : Nat := (s * MULTIPLIER + INCREMENT) % 2 ^ 48

/-- `next(bits)`: advance the LCG and return the top `bits` bits of the new state. -/
def next (s : Nat) (bits : Nat) : Nat × Nat :=
  let s1 := advance s
  (s1, s1 >>> (48 - bits))

/-- `_to_signed_int`: reinterpret an unsigned 32-bit value as signed. -/
def toSignedInt (v : Nat) : Int := if v ≥ 2 ^ 31 then (v : Int) - 2 ^ 32 else (v : Int)

/-- `_to_signed_long`: reinterpret an unsigned 64-bit value as signed. -/
def toSignedLong (v : Nat) : Int := if v ≥ 2 ^ 63 then (v : Int) - 2 ^ 64 else (v : Int)

/-- The rejection loop of `next_int(bound)` for a non-power-of-two bound,
embedded faithfully with fuel.  The accept test
`bits - val + (bound - 1) >= 0` is evaluated, as in the Python source, in
arbitrary-precision integer arithmetic. -/
def nextIntLoop : Nat → Nat → Nat → Option (Nat × Nat)
  | 0, _, _ => none
  | fuel + 1, s, bound =>
    let p := next s 31
    let val := p.2 % bound
    if (p.2 : Int) - (val : Int) + ((bound : Int) - 1) ≥ 0 then some (p.1, val)
    else nextIntLoop fuel p.1 bound

/-- `next_int(bound)` for `bound > 0` (the source raises `ValueError` on
`bound ≤ 0`, and every embedded call site passes a positive bound; the value at
`bound = 0` is junk).  For a non-power-of-two bound the source's loop accepts
its first draw — `nextIntLoop_step` below — so the loop body is inlined. -/
def nextInt (s : Nat) (bound : Nat) : Nat × Nat :=
  if bound &&& (bound - 1) == 0 then
    let p := next s 31
    (p.1, (bound * p.2) >>> 31)
  else
    let p := next s 31
    (p.1, p.2 % bound)

/-- `next_long()`: `high = next(32)`, `low = next(32)`,
`result = (high << 32) + to_signed_int(low)`, then
`to_signed_long(result & ((1 << 64) - 1))`. -/
def nextLong (s : Nat) : Nat × Int :=
  let p1 := next s 32
  let p2 := next p1.1 32
  let lowSigned := toSignedInt p2.2
  let result : Int := (p1.2 : Int) * 2 ^ 32 + lowSigned
  (p2.1, toSignedLong ((result % (2 ^ 64)).toNat))

/-- `set_seed(seed)`: `(seed ^ MULTIPLIER) & MODULUS_MASK`.  The xor-then-mask
on a (possibly negative) Python integer is the 48-bit xor of the residues. -/
def setSeed (seed : Int) : Nat := ((seed % (2 ^ 48)).toNat) ^^^ MULTIPLIER

/-- `WorldgenRandom.set_large_feature_with_salt`. -/
def setLargeFeatureWithSalt (worldSeed x z salt : Int) : Nat :=
  let seed := x * 341873128712 + z * 132897987541 + worldSeed + salt
  setSeed (toSignedLong ((seed % (2 ^ 64)).toNat))

/-- `WorldgenRandom.set_large_feature_seed`. -/
def setLargeFeatureSeed (worldSeed x z : Int) : Nat :=
  let s1 := setSeed worldSeed
  let q1 := nextLong s1
  let q2 := nextLong q1.1
  let xm := toSignedLong (((x * q1.2) % (2 ^ 64)).toNat)
  let zn := toSignedLong (((z * q2.2) % (2 ^ 64)).toNat)
  let sd := ((xm % (2 ^ 64)).toNat ^^^ (zn % (2 ^ 64)).toNat) ^^^
    ((worldSeed % (2 ^ 64)).toNat)
  setSeed (toSignedLong sd)

/-! ### fortress_locator.py : FortressLocator -/

def SPACING : Int := 27

def SEPARATION : Int := 4

def SALT : Int := 30084232

def FORTRESS_WEIGHT : Nat := 2

def TOTAL_WEIGHT : Nat := 5

/-- `get_potential_fortress_chunk`: candidate structure chunk of the region
containing `(cx, cz)`. -/
def getPotentialFortressChunk (worldSeed cx cz : Int) : Int × Int :=
  let region_x := Int.fdiv cx SPACING
  let region_z := Int.fdiv cz SPACING
  let s0 := setLargeFeatureWithSalt worldSeed region_x region_z SALT
  let offsetRange := (SPACING - SEPARATION).toNat
  let p1 := nextInt s0 offsetRange
  let p2 := nextInt p1.1 offsetRange
  (region_x * SPACING + (p1.2 : Int), region_z * SPACING + (p2.2 : Int))

/-- `is_fortress_chunk`: the chunk is a structure chunk iff it is its own
region's candidate.  Note this never consults `_is_fortress_at_chunk`. -/
def isFortressChunk (worldSeed cx cz : Int) : Bool :=
  decide (getPotentialFortressChunk worldSeed cx cz = (cx, cz))

/-- `_is_fortress_at_chunk`: the Fortress-versus-Bastion classifier.  A fresh
RNG is seeded with the (unsalted) large-feature seed of the chunk itself and a
single `next_int(5)` is compared with the fortress weight. -/
def isFortressAtChunk (worldSeed cx cz : Int) : Bool :=
  let s := setLargeFeatureSeed worldSeed cx cz
  let p := nextInt s TOTAL_WEIGHT
  decide (p.2 < FORTRESS_WEIGHT)

/-! ### fortress_generator.py : data model -/

inductive Direction where
  | north
  | east
  | south
  | west
deriving DecidableEq

/-- `Direction(value)` for the values `0..3` drawn by
`get_random_horizontal_direction` (0=NORTH, 1=EAST, 2=SOUTH, 3=WEST). -/
def directionOfNat (n : Nat) : Direction :=
  match n with
  | 0 => .north
  | 1 => .east
  | 2 => .south
  | _ => .west

inductive PieceType where
  | bridgeStraight
  | bridgeCrossing
  | roomCrossing
  | stairsRoom
  | monsterThrone
  | castleEntrance
  | bridgeEndFiller
  | castleSmallCorridor
  | castleSmallCorridorCrossing
  | castleSmallCorridorRightTurn
  | castleSmallCorridorLeftTurn
  | castleCorridorStairs
  | castleCorridorTBalcony
  | castleStalkRoom
  | startPiece
deriving DecidableEq

structure BoundingBox where
  min_x : Int
  min_y : Int
  min_z : Int
  max_x : Int
  max_y : Int
  max_z : Int
deriving DecidableEq

/-- `BoundingBox.intersects`: inclusive overlap on all three axes. -/
def BoundingBox.intersects (self other : BoundingBox) : Bool :=
  decide (self.max_x ≥ other.min_x ∧ self.min_x ≤ other.max_x ∧
    self.max_z ≥ other.min_z ∧ self.min_z ≤ other.max_z ∧
    self.max_y ≥ other.min_y ∧ self.min_y ≤ other.max_y)

/-- `BoundingBox.orient_box`: direction-dependent box of all non-start pieces. -/
def orientBox (x y z ox oy oz : Int) (w h d : Nat) (dir : Direction) : BoundingBox :=
  match dir with
  | .north =>
    ⟨x + ox, y + oy, z - d + 1 + oz, x + w - 1 + ox, y + h - 1 + oy, z + oz⟩
  | .south =>
    ⟨x + ox, y + oy, z + oz, x + w - 1 + ox, y + h - 1 + oy, z + d - 1 + oz⟩
  | .west =>
    ⟨x - d + 1 + oz, y + oy, z + ox, x + oz, y + h - 1 + oy, z + w - 1 + ox⟩
  | .east =>
    ⟨x + oz, y + oy, z + ox, x + d - 1 + oz, y + h - 1 + oy, z + w - 1 + ox⟩

/-- `BoundingBox.make_bounding_box`: start-piece box formula. -/
def makeBoundingBox (x y z : Int) (dir : Direction) (w h d : Nat) : BoundingBox :=
  match dir with
  | .north | .south => ⟨x, y, z, x + w - 1, y + h - 1, z + d - 1⟩
  | .east | .west => ⟨x, y, z, x + d - 1, y + h - 1, z + w - 1⟩

structure PieceWeight where
  piece_type : PieceType
  weight : Nat
  max_place_count : Nat
  allow_in_row : Bool := false
  place_count : Nat := 0
deriving DecidableEq

/-- `PieceWeight.do_place` (the `depth` argument is unused in the source). -/
def PieceWeight.do_place (pw : PieceWeight) (_depth : Nat) : Bool :=
  pw.max_place_count == 0 || decide (pw.place_count < pw.max_place_count)

/-- `PieceWeight.is_valid`. -/
def PieceWeight.is_valid (pw : PieceWeight) : Bool :=
  pw.max_place_count == 0 || decide (pw.place_count < pw.max_place_count)

structure StructurePiece where
  piece_type : PieceType
  bounding_box : BoundingBox
  direction : Direction
  gen_depth : Nat
deriving DecidableEq

/-- `StructurePiece.get_center` (Python `//` is floor division). -/
def StructurePiece.get_center (p : StructurePiece) : Int × Int × Int :=
  (Int.fdiv (p.bounding_box.min_x + p.bounding_box.max_x) 2,
   Int.fdiv (p.bounding_box.min_y + p.bounding_box.max_y) 2,
   Int.fdiv (p.bounding_box.min_z + p.bounding_box.max_z) 2)

/-- `BRIDGE_PIECE_WEIGHTS` (as freshly copied into `self.bridge_weights`). -/
def initialBridgeWeights : List PieceWeight :=
  [⟨.bridgeStraight, 30, 0, true, 0⟩,
   ⟨.bridgeCrossing, 10, 4, false, 0⟩,
   ⟨.roomCrossing, 10, 4, false, 0⟩,
   ⟨.stairsRoom, 10, 3, false, 0⟩,
   ⟨.monsterThrone, 5, 2, false, 0⟩,
   ⟨.castleEntrance, 5, 1, false, 0⟩]

/-- `CASTLE_PIECE_WEIGHTS` (as freshly copied into `self.castle_weights`). -/
def initialCastleWeights : List PieceWeight :=
  [⟨.castleSmallCorridor, 25, 0, true, 0⟩,
   ⟨.castleSmallCorridorCrossing, 15, 5, false, 0⟩,
   ⟨.castleSmallCorridorRightTurn, 5, 10, false, 0⟩,
   ⟨.castleSmallCorridorLeftTurn, 5, 10, false, 0⟩,
   ⟨.castleCorridorStairs, 10, 3, true, 0⟩,
   ⟨.castleCorridorTBalcony, 7, 2, false, 0⟩,
   ⟨.castleStalkRoom, 5, 2, false, 0⟩]

/-- `PIECE_DIMENSIONS` (the dict holds every `PieceType`, so the lookup is
total). -/
def pieceDimensions : PieceType → Nat × Nat × Nat
  | .bridgeStraight => (5, 10, 19)
  | .bridgeCrossing => (19, 10, 19)
  | .roomCrossing => (7, 9, 7)
  | .stairsRoom => (7, 11, 7)
  | .monsterThrone => (7, 8, 9)
  | .castleEntrance => (13, 14, 13)
  | .bridgeEndFiller => (5, 10, 8)
  | .castleSmallCorridor => (5, 7, 5)
  | .castleSmallCorridorCrossing => (5, 7, 5)
  | .castleSmallCorridorRightTurn => (5, 7, 5)
  | .castleSmallCorridorLeftTurn => (5, 7, 5)
  | .castleCorridorStairs => (5, 14, 10)
  | .castleCorridorTBalcony => (9, 7, 9)
  | .castleStalkRoom => (13, 14, 13)
  | .startPiece => (19, 10, 19)

/-- `PIECE_OFFSETS` (the dict holds every `PieceType`, so the lookup is total). -/
def pieceOffsets : PieceType → Int × Int × Int
  | .bridgeStraight => (-1, -3, 0)
  | .bridgeCrossing => (-8, -3, 0)
  | .roomCrossing => (-2, 0, 0)
  | .stairsRoom => (-2, 0, 0)
  | .monsterThrone => (-2, 0, 0)
  | .castleEntrance => (-5, -3, 0)
  | .bridgeEndFiller => (-1, -3, 0)
  | .castleSmallCorridor => (-1, 0, 0)
  | .castleSmallCorridorCrossing => (-1, 0, 0)
  | .castleSmallCorridorRightTurn => (-1, 0, 0)
  | .castleSmallCorridorLeftTurn => (-1, 0, 0)
  | .castleCorridorStairs => (-1, -7, 0)
  | .castleCorridorTBalcony => (-3, 0, 0)
  | .castleStalkRoom => (-5, -3, 0)
  | .startPiece => (-8, -3, 0)

/-! ### fortress_generator.py : FortressGenerator -/

/-- The generator's mutable fields (`self.random`, `self.pieces`,
`self.pending_children`, `self.bridge_weights`, `self.castle_weights`,
`self.previous_piece`, `self.start_bounding_box`).  `previous_piece` is
represented by its `PieceType`: entries of the two weight lists have pairwise
distinct types, so Python's dataclass value-equality test
`pw == self.previous_piece` holds exactly when the types coincide. -/
structure GenState where
  rng : Nat
  pieces : List StructurePiece
  pending_children : List StructurePiece
  bridge_weights : List PieceWeight
  castle_weights : List PieceWeight
  previous_piece : Option PieceType
  start_bounding_box : Option BoundingBox
deriving DecidableEq

/-- `_is_ok_box`. -/
def isOkBox (box : BoundingBox) : Bool := decide (box.min_y > 10)

/-- `_find_collision`. -/
def findCollision (pieces : List StructurePiece) (box : BoundingBox) : Bool :=
  pieces.any fun p => p.bounding_box.intersects box

/-- `_update_piece_weight`: total weight, or `-1` when no capped entry is still
placeable. -/
def updatePieceWeight (ws : List PieceWeight) : Int :=
  let hasValid := ws.any fun pw =>
    decide (0 < pw.max_place_count ∧ pw.place_count < pw.max_place_count)
  let total : Int := ws.foldl (fun t pw => t + (pw.weight : Int)) 0
  if hasValid then total else -1

/-- `_create_piece`. -/
def createPiece (pieces : List StructurePiece) (pt : PieceType) (x y z : Int)
    (dir : Direction) (depth : Nat) : Option StructurePiece :=
  let dims := pieceDimensions pt
  let offs := pieceOffsets pt
  let box := orientBox x y z offs.1 offs.2.1 offs.2.2 dims.1 dims.2.1 dims.2.2 dir
  if ¬ isOkBox box then none
  else if findCollision pieces box then none
  else some ⟨pt, box, dir, depth⟩

/-- `_create_end_filler`. -/
def createEndFiller (pieces : List StructurePiece) (x y z : Int)
    (dir : Direction) (depth : Nat) : Option StructurePiece :=
  let box := orientBox x y z (-1) (-3) 0 5 10 8 dir
  if ¬ isOkBox box then none
  else if findCollision pieces box then none
  else some ⟨.bridgeEndFiller, box, dir, depth⟩

/-- The `for pw in weights` scan inside `_generate_piece`'s attempt loop.
Returns `some (updated weight list, chosen type, created piece)` when a piece
is created and returned; `none` both for the three `break`s (capped entry,
`allow_in_row` conflict, creation rejected) and for the loop running off the
end of the list — in all of those cases the attempt `while` continues. -/
def scanWeights (pieces : List StructurePiece) (prev : Option PieceType)
    (x y z : Int) (dir : Direction) (depth : Nat) :
    Int → List PieceWeight → Option (List PieceWeight × PieceType × StructurePiece)
  | _, [] => none
  | target, pw :: rest =>
    let target1 := target - (pw.weight : Int)
    if target1 < 0 then
      if ¬ pw.do_place depth then none
      else if prev == some pw.piece_type && !pw.allow_in_row then none
      else
        match createPiece pieces pw.piece_type x y z dir depth with
        | some piece =>
          let pw1 : PieceWeight := { pw with place_count := pw.place_count + 1 }
          let ws1 := if pw1.is_valid then pw1 :: rest else rest
          some (ws1, pw.piece_type, piece)
        | none => none
    else
      match scanWeights pieces prev x y z dir depth target1 rest with
      | some (ws1, t, p) => some (pw :: ws1, t, p)
      | none => none

/-- Result of `_generate_piece`: the new RNG state, the (possibly mutated)
weight list, the new `previous_piece`, the returned piece, and — as a ghost
observation that does not influence control flow — the number of
`next_int(total_weight)` draws the attempt loop consumed. -/
structure GenPieceResult where
  rng : Nat
  weights : List PieceWeight
  previous_piece : Option PieceType
  piece : Option StructurePiece
  draws : Nat
deriving DecidableEq

/-- The `while attempts < 5 and can_place` loop of `_generate_piece`, by fuel
on the remaining attempts.  A failed attempt (scan returned `none`) leaves the
weight list and `previous_piece` untouched and loops. -/
def attemptLoop (pieces : List StructurePiece) (x y z : Int) (dir : Direction)
    (depth total : Nat) :
    Nat → Nat → List PieceWeight → Option PieceType → GenPieceResult
  | 0, rng, ws, prev => ⟨rng, ws, prev, none, 0⟩
  | n + 1, rng, ws, prev =>
    let p := nextInt rng total
    match scanWeights pieces prev x y z dir depth (p.2 : Int) ws with
    | some (ws1, t, piece) => ⟨p.1, ws1, some t, some piece, 1⟩
    | none =>
      let r := attemptLoop pieces x y z dir depth total n p.1 ws prev
      { r with draws := r.draws + 1 }

/-- `_generate_piece`. -/
def generatePiece (pieces : List StructurePiece) (x y z : Int) (dir : Direction)
    (depth : Nat) (rng : Nat) (ws : List PieceWeight) (prev : Option PieceType) :
    GenPieceResult :=
  let total := updatePieceWeight ws
  if 0 < total ∧ depth ≤ 30 then
    let r := attemptLoop pieces x y z dir depth total.toNat 5 rng ws prev
    match r.piece with
    | some _ => r
    | none => { r with piece := createEndFiller pieces x y z dir depth }
  else
    ⟨rng, ws, prev, createEndFiller pieces x y z dir depth, 0⟩

/-- The distance guard at the top of `_generate_and_add_piece`: when the
anchor (`self.start_bounding_box`) is set and the request origin is more than
112 blocks from its `min_x` or `min_z`, the request is dropped. -/
def outOfRange (st : GenState) (x z : Int) : Bool :=
  match st.start_bounding_box with
  | some anchor =>
    decide ((x - anchor.min_x).natAbs > 112 ∨ (z - anchor.min_z).natAbs > 112)
  | none => false

/-- `_generate_and_add_piece`. -/
def generateAndAddPiece (st : GenState) (x y z : Int) (dir : Direction)
    (depth : Nat) (isCastle : Bool) : GenState × Option StructurePiece :=
  if outOfRange st x z then (st, none)
  else
    let ws := if isCastle then st.castle_weights else st.bridge_weights
    let r := generatePiece st.pieces x y z dir (depth + 1) st.rng ws st.previous_piece
    let st1 := { st with
      rng := r.rng
      previous_piece := r.previous_piece
      bridge_weights := if isCastle then st.bridge_weights else r.weights
      castle_weights := if isCastle then r.weights else st.castle_weights }
    match r.piece with
    | some p =>
      ({ st1 with
          pieces := st1.pieces ++ [p]
          pending_children := st1.pending_children ++ [p] }, some p)
    | none => (st1, none)

/-- `_generate_child_forward`. -/
def generateChildForward (st : GenState) (piece : StructurePiece)
    (offI offJ : Int) (isCastle : Bool) : GenState :=
  let box := piece.bounding_box
  let xyz : Int × Int × Int :=
    match piece.direction with
    | .north => (box.min_x + offI, box.min_y + offJ, box.min_z - 1)
    | .south => (box.min_x + offI, box.min_y + offJ, box.max_z + 1)
    | .west => (box.min_x - 1, box.min_y + offJ, box.min_z + offI)
    | .east => (box.max_x + 1, box.min_y + offJ, box.min_z + offI)
  (generateAndAddPiece st xyz.1 xyz.2.1 xyz.2.2 piece.direction piece.gen_depth isCastle).1

/-- `_generate_child_left`. -/
def generateChildLeft (st : GenState) (piece : StructurePiece)
    (offI offJ : Int) (isCastle : Bool) : GenState :=
  let box := piece.bounding_box
  let v : Int × Int × Int × Direction :=
    match piece.direction with
    | .north => (box.min_x - 1, box.min_y + offI, box.min_z + offJ, .west)
    | .south => (box.min_x - 1, box.min_y + offI, box.min_z + offJ, .west)
    | .west => (box.min_x + offJ, box.min_y + offI, box.min_z - 1, .north)
    | .east => (box.min_x + offJ, box.min_y + offI, box.min_z - 1, .north)
  (generateAndAddPiece st v.1 v.2.1 v.2.2.1 v.2.2.2 piece.gen_depth isCastle).1

/-- `_generate_child_right`. -/
def generateChildRight (st : GenState) (piece : StructurePiece)
    (offI offJ : Int) (isCastle : Bool) : GenState :=
  let box := piece.bounding_box
  let v : Int × Int × Int × Direction :=
    match piece.direction with
    | .north => (box.max_x + 1, box.min_y + offI, box.min_z + offJ, .east)
    | .south => (box.max_x + 1, box.min_y + offI, box.min_z + offJ, .east)
    | .west => (box.min_x + offJ, box.min_y + offI, box.max_z + 1, .south)
    | .east => (box.min_x + offJ, box.min_y + offI, box.max_z + 1, .south)
  (generateAndAddPiece st v.1 v.2.1 v.2.2.1 v.2.2.2 piece.gen_depth isCastle).1

/-- `_add_children_for_crossing`. -/
def addChildrenForCrossing (piece : StructurePiece) (st : GenState) : GenState :=
  let st1 := generateChildForward st piece 8 3 false
  let st2 := generateChildLeft st1 piece 3 8 false
  generateChildRight st2 piece 3 8 false

/-- `_add_children` dispatch.  `MonsterThrone` and `BridgeEndFiller` have no
branch in the source and spawn nothing. -/
def addChildren (piece : StructurePiece) (st : GenState) : GenState :=
  match piece.piece_type with
  | .startPiece | .bridgeCrossing => addChildrenForCrossing piece st
  | .bridgeStraight => generateChildForward st piece 1 3 false
  | .roomCrossing =>
    let st1 := generateChildForward st piece 2 0 false
    let st2 := generateChildLeft st1 piece 0 2 false
    generateChildRight st2 piece 0 2 false
  | .stairsRoom => generateChildRight st piece 6 2 false
  | .castleEntrance => generateChildForward st piece 5 3 true
  | .castleSmallCorridor => generateChildForward st piece 1 0 true
  | .castleSmallCorridorCrossing =>
    let st1 := generateChildForward st piece 1 0 true
    let st2 := generateChildLeft st1 piece 0 1 true
    generateChildRight st2 piece 0 1 true
  | .castleSmallCorridorRightTurn => generateChildRight st piece 0 1 true
  | .castleSmallCorridorLeftTurn => generateChildLeft st piece 0 1 true
  | .castleCorridorStairs => generateChildForward st piece 1 0 true
  | .castleCorridorTBalcony =>
    let i : Int :=
      match piece.direction with
      | .west | .north => 5
      | _ => 1
    let p1 := nextInt st.rng 8
    let st1 := generateChildLeft { st with rng := p1.1 } piece 0 i (decide (p1.2 > 0))
    let p2 := nextInt st1.rng 8
    generateChildRight { st1 with rng := p2.1 } piece 0 i (decide (p2.2 > 0))
  | .castleStalkRoom =>
    let st1 := generateChildForward st piece 5 3 true
    generateChildForward st1 piece 5 11 true
  | _ => st

/-- The `while self.pending_children` loop of `generate`, by fuel.  Each
iteration draws `next_int(len(pending))`, pops that index and spawns the popped
piece's children.  `next_int` always returns an index below the length, so the
`none` branch of the lookup is unreachable. -/
def mainLoop : Nat → GenState → GenState
  | 0, st => st
  | fuel + 1, st =>
    if st.pending_children.isEmpty then st
    else
      let p := nextInt st.rng st.pending_children.length
      match st.pending_children.get? p.2 with
      | some piece =>
        mainLoop fuel
          (addChildren piece
            { st with rng := p.1, pending_children := st.pending_children.eraseIdx p.2 })
      | none => st

/-- The start piece built at the top of `generate`: its position is
`(cx*16 + 2, 64, cz*16 + 2)`, its direction is `Direction(next_int(4))` (via
`get_random_horizontal_direction`), its box comes from `make_bounding_box`, and
its generation depth is 0. -/
def startPieceOf (worldSeed cx cz : Int) : StructurePiece :=
  let rng0 := setLargeFeatureSeed worldSeed cx cz
  let dir := directionOfNat (nextInt rng0 4).2
  ⟨.startPiece, makeBoundingBox (cx * 16 + 2) 64 (cz * 16 + 2) dir 19 10 19, dir, 0⟩

/-- The part of `generate` before the main loop: seed the RNG, draw the start
direction, append the start piece, record the anchor box, and spawn the start
piece's children. -/
def initState (worldSeed cx cz : Int) : GenState :=
  addChildrenForCrossing (startPieceOf worldSeed cx cz)
    ⟨(nextInt (setLargeFeatureSeed worldSeed cx cz) 4).1,
      [startPieceOf worldSeed cx cz], [], initialBridgeWeights,
      initialCastleWeights, none, some (startPieceOf worldSeed cx cz).bounding_box⟩

/-- `FortressGenerator.generate` with fuel for the main loop. -/
def generateState (fuel : Nat) (worldSeed cx cz : Int) : GenState :=
  mainLoop fuel (initState worldSeed cx cz)

/-- The piece list returned by `generate`. -/
def generate (fuel : Nat) (worldSeed cx cz : Int) : List StructurePiece :=
  (generateState fuel worldSeed cx cz).pieces

/-! ### crossing_detector.py : CrossingDetector -/

structure QuadCrossing where
  crossings : List StructurePiece
  center : Int × Int × Int
  bounding_box : BoundingBox
deriving DecidableEq

/-- `_is_directly_adjacent_x`: identical `z` and `y` ranges, and the boxes
touch (`max + 1 = min`) on the `x` axis, in either order. -/
def isDirectlyAdjacentX (box1 box2 : BoundingBox) : Bool :=
  if box1.min_z != box2.min_z || box1.max_z != box2.max_z then false
  else if box1.min_y != box2.min_y || box1.max_y != box2.max_y then false
  else if box2.min_x == box1.max_x + 1 then true
  else if box1.min_x == box2.max_x + 1 then true
  else false

/-- `_is_directly_adjacent_z`. -/
def isDirectlyAdjacentZ (box1 box2 : BoundingBox) : Bool :=
  if box1.min_x != box2.min_x || box1.max_x != box2.max_x then false
  else if box1.min_y != box2.min_y || box1.max_y != box2.max_y then false
  else if box2.min_z == box1.max_z + 1 then true
  else if box1.min_z == box2.max_z + 1 then true
  else false

/-- One iteration of `_find_quad_from_corner`'s neighbor loop: keep the nearest
directly-adjacent right (`+x`) and down (`+z`) neighbors seen so far. -/
def updateNeighbors (corner : StructurePiece)
    (acc : Option StructurePiece × Option StructurePiece) (c : StructurePiece) :
    Option StructurePiece × Option StructurePiece :=
  if c == corner then acc
  else
    let dx := (c.get_center).1 - (corner.get_center).1
    let dz := (c.get_center).2.2 - (corner.get_center).2.2
    let r :=
      if decide (0 < dx) && isDirectlyAdjacentX corner.bounding_box c.bounding_box then
        match acc.1 with
        | none => some c
        | some r0 =>
          if dx < (r0.get_center).1 - (corner.get_center).1 then some c else some r0
      else acc.1
    let d :=
      if decide (0 < dz) && isDirectlyAdjacentZ corner.bounding_box c.bounding_box then
        match acc.2 with
        | none => some c
        | some d0 =>
          if dz < (d0.get_center).2.2 - (corner.get_center).2.2 then some c else some d0
      else acc.2
    (r, d)

/-- `_find_quad_from_corner`. -/
def findQuadFromCorner (corner : StructurePiece) (allCrossings : List StructurePiece) :
    Option QuadCrossing :=
  match allCrossings.foldl (updateNeighbors corner) (none, none) with
  | (some r, some d) =>
    match allCrossings.find? (fun c =>
        !(c == corner || c == r || c == d) &&
        isDirectlyAdjacentZ r.bounding_box c.bounding_box &&
        isDirectlyAdjacentX d.bounding_box c.bounding_box) with
    | some diag =>
      let cs := [corner, r, d, diag]
      let mnx := min (min corner.bounding_box.min_x r.bounding_box.min_x)
        (min d.bounding_box.min_x diag.bounding_box.min_x)
      let mny := min (min corner.bounding_box.min_y r.bounding_box.min_y)
        (min d.bounding_box.min_y diag.bounding_box.min_y)
      let mnz := min (min corner.bounding_box.min_z r.bounding_box.min_z)
        (min d.bounding_box.min_z diag.bounding_box.min_z)
      let mxx := max (max corner.bounding_box.max_x r.bounding_box.max_x)
        (max d.bounding_box.max_x diag.bounding_box.max_x)
      let mxy := max (max corner.bounding_box.max_y r.bounding_box.max_y)
        (max d.bounding_box.max_y diag.bounding_box.max_y)
      let mxz := max (max corner.bounding_box.max_z r.bounding_box.max_z)
        (max d.bounding_box.max_z diag.bounding_box.max_z)
      some ⟨cs,
        (Int.fdiv (mnx + mxx) 2, Int.fdiv (mny + mxy) 2, Int.fdiv (mnz + mxz) 2),
        ⟨mnx, mny, mnz, mxx, mxy, mxz⟩⟩
    | none => none
  | _ => none

/-- Membership-set equality of two quads.  The source compares the sets of
CPython object identities; on the value level (each generated piece is a
distinct value) this is mutual containment. -/
def sameMembers (a b : List StructurePiece) : Bool :=
  a.all (fun c => b.contains c) && b.all (fun c => a.contains c)

/-- `_is_duplicate_quad`. -/
def isDuplicateQuad (quad : QuadCrossing) (existing : List QuadCrossing) : Bool :=
  existing.any fun e => sameMembers e.crossings quad.crossings

/-- `find_quad_crossings`. -/
def findQuadCrossings (crossings : List StructurePiece) : List QuadCrossing :=
  if crossings.length < 4 then []
  else
    crossings.foldl (fun acc c =>
      match findQuadFromCorner c crossings with
      | some q => if isDuplicateQuad q acc then acc else acc ++ [q]
      | none => acc) []

/-! ### Auxiliary definitions used by the theorems -/

/-- Wrapping of an integer into the signed 32-bit range (two's complement). -/
def wrapSigned32 (v : Int) : Int := (v + 2 ^ 31) % (2 ^ 32) - 2 ^ 31

/-- Wrapping of an integer into the signed 64-bit range (two's complement). -/
def wrapSigned64 (v : Int) : Int := (v + 2 ^ 63) % (2 ^ 64) - 2 ^ 63

/-- The formula the specification claims for `next_long`: both 32-bit draws
reinterpreted as signed, the first shifted left by 32, the second
sign-extended, and the sum wrapped in signed 64-bit arithmetic. -/
def nextLongSpec (s : Nat) : Int :=
  let p1 := next s 32
  let p2 := next p1.1 32
  wrapSigned64 (toSignedInt p1.2 * 2 ^ 32 + toSignedInt p2.2)

/-- Piece kinds that spawn children in `_add_children` (every kind except
`MonsterThrone` and `BridgeEndFiller`, which have no branch there). -/
def hasChildren (t : PieceType) : Bool :=
  !(t == .monsterThrone || t == .bridgeEndFiller)

/-- Weight entries never carry the start-piece or filler kind. -/
def wsTypesOK (ws : List PieceWeight) : Prop :=
  ∀ w ∈ ws, w.piece_type ≠ .startPiece ∧ w.piece_type ≠ .bridgeEndFiller

/-- The generator's running invariant: placed pieces are pairwise
non-intersecting, the start piece has depth 0, all other pieces have depth at
most 31, pending pieces that can spawn children have depth at most 30, and the
weight lists are well-formed. -/
def GoodState (st : GenState) : Prop :=
  List.Pairwise (fun a b => a.bounding_box.intersects b.bounding_box = false) st.pieces
  ∧ (∀ p ∈ st.pieces,
      (p.piece_type = .startPiece → p.gen_depth = 0)
      ∧ (p.piece_type ≠ .startPiece → p.gen_depth ≤ 31))
  ∧ (∀ p ∈ st.pending_children, hasChildren p.piece_type = true → p.gen_depth ≤ 30)
  ∧ wsTypesOK st.bridge_weights ∧ wsTypesOK st.castle_weights

/-- Termination weight of a single pending entry. -/
def pieceMeasure (p : StructurePiece) : Nat :=
  if hasChildren p.piece_type then 4 ^ (31 - p.gen_depth) else 1

/-- Termination measure of the pending list. -/
def pendingMeasure (l : List StructurePiece) : Nat := (l.map pieceMeasure).sum

/-- What the neighbor scan of `_find_quad_from_corner` guarantees about a
selected right neighbor: direct `x`-adjacency and a strictly larger
`x`-center. -/
def rightOK (corner c : StructurePiece) : Prop :=
  isDirectlyAdjacentX corner.bounding_box c.bounding_box = true
  ∧ 0 < (c.get_center).1 - (corner.get_center).1

/-- Guarantee about a selected down neighbor: direct `z`-adjacency and a
strictly larger `z`-center. -/
def downOK (corner c : StructurePiece) : Prop :=
  isDirectlyAdjacentZ corner.bounding_box c.bounding_box = true
  ∧ 0 < (c.get_center).2.2 - (corner.get_center).2.2

/-- A piece whose bounding box spans 19 blocks (inclusively) on both the `x`
and `z` axes, as every `BridgeCrossing` and `StartPiece` box does. -/
def span19 (p : StructurePiece) : Prop :=
  p.bounding_box.max_x - p.bounding_box.min_x = 18
  ∧ p.bounding_box.max_z - p.bounding_box.min_z = 18

/-! ### Basic RNG lemmas -/

theorem advance_lt (s : Nat) : advance s < 2 ^ 48 :=
  Nat.mod_lt _ (by norm_num)

theorem next_snd_lt (s : Nat) (bits : Nat) (h : bits ≤ 48) :
    (next s bits).2 < 2 ^ bits := by
  simp only [next]
  rw [Nat.shiftRight_eq_div_pow]
  refine Nat.div_lt_of_lt_mul ?_
  have h1 := advance_lt s
  have h2 : 2 ^ (48 - bits) * 2 ^ bits = 2 ^ 48 := by
    rw [← pow_add]; congr 1; omega
  omega

theorem nextInt_fst (s bound : Nat) : (nextInt s bound).1 = advance s := by
  unfold nextInt
  split <;> rfl

theorem nextInt_snd_lt (s bound : Nat) (h : bound ≠ 0) : (nextInt s bound).2 < bound := by
  unfold nextInt
  split
  · show (bound * (next s 31).2) >>> 31 < bound
    rw [Nat.shiftRight_eq_div_pow]
    refine Nat.div_lt_of_lt_mul ?_
    have hb := next_snd_lt s 31 (by norm_num)
    calc bound * (next s 31).2 < bound * 2 ^ 31 :=
          mul_lt_mul_of_pos_left hb (Nat.pos_of_ne_zero h)
      _ = 2 ^ 31 * bound := Nat.mul_comm _ _
  · exact Nat.mod_lt _ (Nat.pos_of_ne_zero h)

/-- For a positive non-power-of-two bound, the faithful rejection loop of
`next_int` accepts its very first draw — the accept test is evaluated in exact
integer arithmetic, where it always holds — so `nextInt` computes it with a
single draw. -/
theorem nextIntLoop_step (fuel s bound : Nat)
    (h : (bound &&& (bound - 1) == 0) = false) :
    nextIntLoop (fuel + 1) s bound = some (nextInt s bound) := by
  have hb : 1 ≤ bound := by
    rcases Nat.eq_zero_or_pos bound with h0 | h0
    · subst h0; simp at h
    · exact h0
  have hle := Nat.mod_le (next s 31).2 bound
  have hguard : ((next s 31).2 : Int) - (((next s 31).2 % bound : Nat) : Int)
      + ((bound : Int) - 1) ≥ 0 := by
    push_cast
    omega
  simp only [nextIntLoop, nextInt, h, if_pos hguard]
  rfl

/-! ### Claims about the random source -/

/-- C3: the claim states that for a non-power-of-two bound the accept test
`bits - val + (bound - 1) ≥ 0` is evaluated in wrapping signed 32-bit
arithmetic and a draw is rejected whenever that evaluation is negative.  The
code evaluates the test in exact (arbitrary-precision) arithmetic instead: at
the RNG state 186667457325737 with bound 3, `next(31)` yields
`bits = 2147483647`, the 32-bit evaluation of the test wraps negative (so the
claimed semantics rejects and draws again), yet the exact test holds and the
code's loop accepts this very first draw and returns. -/
theorem nextInt_rejection_not_32bit :
    (next 186667457325737 31).2 = 2147483647
    ∧ ((next 186667457325737 31).2 : Int) - (((next 186667457325737 31).2 % 3 : Nat) : Int)
        + ((3 : Int) - 1) ≥ 0
    ∧ wrapSigned32 (((next 186667457325737 31).2 : Int)
        - (((next 186667457325737 31).2 % 3 : Nat) : Int) + ((3 : Int) - 1)) < 0
    ∧ nextIntLoop 1 186667457325737 3
        = some ((next 186667457325737 31).1, (next 186667457325737 31).2 % 3) := by
  refine ⟨by decide, by decide, by decide, by decide⟩

theorem toSignedLong_emod_eq (V : Int) :
    toSignedLong ((V % (2 ^ 64)).toNat) = wrapSigned64 V
    ∧ -(2 ^ 63) ≤ wrapSigned64 V ∧ wrapSigned64 V < 2 ^ 63 := by
  unfold toSignedLong wrapSigned64
  split_ifs <;> omega

/-- C4: `next_long` draws `high` then `low`, both 32 bits, and the result is
`((high as signed 64) << 32) + (low sign-extended from signed 32)` wrapped in
signed 64-bit arithmetic; the result always lies in the signed 64-bit range. -/
theorem nextLong_sign_extends (s : Nat) :
    (nextLong s).2 = nextLongSpec s
    ∧ -(2 ^ 63) ≤ (nextLong s).2 ∧ (nextLong s).2 < 2 ^ 63 := by
  have hVA : (((next s 32).2 : Int) * 2 ^ 32 + toSignedInt (next (next s 32).1 32).2) % (2 ^ 64)
      = (toSignedInt (next s 32).2 * 2 ^ 32 + toSignedInt (next (next s 32).1 32).2) % (2 ^ 64) := by
    by_cases hc : (next s 32).2 ≥ 2 ^ 31
    · rw [show ((next s 32).2 : Int) * 2 ^ 32 + toSignedInt (next (next s 32).1 32).2
          = ((((next s 32).2 : Int) - 2 ^ 32) * 2 ^ 32 + toSignedInt (next (next s 32).1 32).2)
            + 2 ^ 64 * 1 by ring]
      rw [Int.add_mul_emod_self_left]
      simp only [toSignedInt, if_pos hc]
    · simp only [toSignedInt, if_neg hc]
  have hmain := toSignedLong_emod_eq
    (toSignedInt (next s 32).2 * 2 ^ 32 + toSignedInt (next (next s 32).1 32).2)
  obtain ⟨ha, hb, hc⟩ := hmain
  simp only [nextLong, nextLongSpec]
  rw [hVA, ha]
  exact ⟨rfl, hb, hc⟩

/-! ### Claims about the locator and the out-of-range guard -/

/-- C5: a spawn request whose origin is more than 112 blocks from the anchor's
`min_x` or `min_z` produces no piece and returns the generator state — RNG,
pieces list, pending list, weight lists — completely unchanged. -/
theorem generateAndAddPiece_outOfRange (st : GenState) (x y z : Int)
    (dir : Direction) (depth : Nat) (isCastle : Bool) (anchor : BoundingBox)
    (ha : st.start_bounding_box = some anchor)
    (hfar : (x - anchor.min_x).natAbs > 112 ∨ (z - anchor.min_z).natAbs > 112) :
    generateAndAddPiece st x y z dir depth isCastle = (st, none) := by
  have hb : outOfRange st x z = true := by
    unfold outOfRange
    rw [ha]
    exact decide_eq_true hfar
  unfold generateAndAddPiece
  rw [hb]
  rfl

/-- Witness for C5 at a concrete state: a request at `x = 200` against an
anchor with `min_x = 0` is dropped with the state untouched. -/
theorem generateAndAddPiece_outOfRange_witness :
    generateAndAddPiece
      ⟨77, [], [], initialBridgeWeights, initialCastleWeights, none,
        some ⟨0, 64, 0, 18, 73, 18⟩⟩ 200 64 0 .south 0 false
    = (⟨77, [], [], initialBridgeWeights, initialCastleWeights, none,
        some ⟨0, 64, 0, 18, 73, 18⟩⟩, none) :=
  generateAndAddPiece_outOfRange _ 200 64 0 .south 0 false _ rfl
    (Or.inl (by decide))

/-- C10: `is_fortress_chunk` holds exactly when the salted per-region candidate
chunk equals the queried chunk, and it never invokes the Fortress-versus-Bastion
classifier: at seed 0 the candidate chunk `(-141, -120)` satisfies
`is_fortress_chunk` even though `_is_fortress_at_chunk` classifies it as a
Bastion. -/
theorem isFortressChunk_ignores_classifier :
    (∀ worldSeed cx cz : Int,
      isFortressChunk worldSeed cx cz = true
        ↔ getPotentialFortressChunk worldSeed cx cz = (cx, cz))
    ∧ isFortressChunk 0 (-141) (-120) = true
    ∧ isFortressAtChunk 0 (-141) (-120) = false := by
  refine ⟨fun worldSeed cx cz => ?_, by decide, by decide⟩
  simp [isFortressChunk]

/-! ### Claims about the weighted piece creation (attempt loop and filler) -/

/-- C1 counterexample: at a concrete request (no placed pieces, origin `y = 5`
so that every piece creation fails the `min_y > 10` check) the very first
drawn weight entry is rejected — the scan of the first draw returns `none` —
yet the generator performs all five `next_int(total)` draws instead of moving
directly to the filler fallback after the first rejection. -/
theorem generatePiece_retries_counterexample :
    scanWeights [] none 0 5 0 .south 1 ((nextInt 0 70).2 : Int) initialBridgeWeights = none
    ∧ (generatePiece [] 0 5 0 .south 1 0 initialBridgeWeights none).draws = 5
    ∧ (generatePiece [] 0 5 0 .south 1 0 initialBridgeWeights none).piece
        = createEndFiller [] 0 5 0 .south 1 := by
  exact ⟨by decide, by decide, by decide⟩

theorem attemptLoop_all_reject (pieces : List StructurePiece) (x y z : Int)
    (dir : Direction) (depth total : Nat) (ws : List PieceWeight)
    (prev : Option PieceType)
    (hrej : ∀ t : Int, scanWeights pieces prev x y z dir depth t ws = none) :
    ∀ n rng, attemptLoop pieces x y z dir depth total n rng ws prev
      = ⟨advance^[n] rng, ws, prev, none, n⟩ := by
  intro n
  induction n with
  | zero => intro rng; rfl
  | succ k ih =>
    intro rng
    simp only [attemptLoop, hrej, ih, nextInt_fst, Function.iterate_succ_apply]

/-- C1 amended: when the drawn weight entry of an attempt is capped or its
piece creation is rejected, the inner weight scan of that attempt ends, but the
generator then continues with the remaining of the up-to-5 attempts — each
drawing a fresh `next_int(total)` — and reaches the `BridgeEndFiller` fallback
only after all five attempts have failed.  Stated for a request on which every
attempt's scan rejects: the loop consumes exactly five draws (advancing the
RNG five times) and then falls back to the filler. -/
theorem generatePiece_retries_amended (pieces : List StructurePiece) (x y z : Int)
    (dir : Direction) (depth : Nat) (rng : Nat) (ws : List PieceWeight)
    (prev : Option PieceType)
    (htotal : 0 < updatePieceWeight ws) (hdepth : depth ≤ 30)
    (hrej : ∀ t : Int, scanWeights pieces prev x y z dir depth t ws = none) :
    generatePiece pieces x y z dir depth rng ws prev
      = ⟨advance^[5] rng, ws, prev, createEndFiller pieces x y z dir depth, 5⟩ := by
  unfold generatePiece
  rw [if_pos ⟨htotal, hdepth⟩,
    attemptLoop_all_reject pieces x y z dir depth (updatePieceWeight ws).toNat ws prev hrej 5 rng]

theorem scanWeights_lowY_reject (t : Int) :
    scanWeights [] none 0 5 0 .south 1 t initialBridgeWeights = none := by
  have e1 : createPiece [] .bridgeStraight 0 5 0 .south 1 = none := by decide
  have e2 : createPiece [] .bridgeCrossing 0 5 0 .south 1 = none := by decide
  have e3 : createPiece [] .roomCrossing 0 5 0 .south 1 = none := by decide
  have e4 : createPiece [] .stairsRoom 0 5 0 .south 1 = none := by decide
  have e5 : createPiece [] .monsterThrone 0 5 0 .south 1 = none := by decide
  have e6 : createPiece [] .castleEntrance 0 5 0 .south 1 = none := by decide
  simp only [initialBridgeWeights, scanWeights, e1, e2, e3, e4, e5, e6]
  norm_num [PieceWeight.do_place]

/-- Witness for the amended C1 at the counterexample's concrete request. -/
theorem generatePiece_retries_amended_witness :
    generatePiece [] 0 5 0 .south 1 0 initialBridgeWeights none
      = ⟨advance^[5] 0, initialBridgeWeights, none, createEndFiller [] 0 5 0 .south 1, 5⟩ :=
  generatePiece_retries_amended [] 0 5 0 .south 1 0 initialBridgeWeights none
    (by decide) (by decide) (fun t => scanWeights_lowY_reject t)

/-- C2 counterexample: at a concrete state where the filler fallback succeeds
(the attempt loop is skipped because `depth + 1 > 30`), the produced
`BridgeEndFiller` piece is appended to the pending-children list as well as to
the pieces list, contradicting the claim that it is never enqueued. -/
theorem fillerEnqueued_counterexample :
    ((generateAndAddPiece
        ⟨0, [], [], initialBridgeWeights, initialCastleWeights, none, none⟩
        0 64 0 .south 30 false).1).pending_children
      = [⟨.bridgeEndFiller, ⟨-1, 61, 0, 3, 70, 7⟩, .south, 31⟩]
    ∧ ((generateAndAddPiece
        ⟨0, [], [], initialBridgeWeights, initialCastleWeights, none, none⟩
        0 64 0 .south 30 false).1).pieces
      = [⟨.bridgeEndFiller, ⟨-1, 61, 0, 3, 70, 7⟩, .south, 31⟩] := by
  exact ⟨by decide, by decide⟩

theorem addChildren_of_filler {p : StructurePiece}
    (hp : p.piece_type = .bridgeEndFiller) (st2 : GenState) :
    addChildren p st2 = st2 := by
  unfold addChildren
  rw [hp]

/-- C2 amended: whenever `_generate_and_add_piece` produces a piece — the
successful filler fallback included — that piece is appended to both the
pieces list and the pending-children list; a `BridgeEndFiller` popped later by
the main loop spawns no children (`_add_children` has no branch for it). -/
theorem generateAndAddPiece_enqueues (st : GenState) (x y z : Int)
    (dir : Direction) (depth : Nat) (isCastle : Bool) (st1 : GenState)
    (p : StructurePiece)
    (h : generateAndAddPiece st x y z dir depth isCastle = (st1, some p)) :
    st1.pieces = st.pieces ++ [p]
    ∧ st1.pending_children = st.pending_children ++ [p]
    ∧ (p.piece_type = .bridgeEndFiller → ∀ st2, addChildren p st2 = st2) := by
  by_cases hb : outOfRange st x z = true
  · unfold generateAndAddPiece at h
    rw [if_pos hb] at h
    exact absurd h (by simp)
  · rcases hq : (generatePiece st.pieces x y z dir (depth + 1) st.rng
        (if isCastle = true then st.castle_weights else st.bridge_weights)
        st.previous_piece).piece with _ | q
    · unfold generateAndAddPiece at h
      rw [if_neg hb] at h
      simp only [hq] at h
      exact absurd h (by simp)
    · unfold generateAndAddPiece at h
      rw [if_neg hb] at h
      simp only [hq] at h
      injection h with h1 h2
      injection h2 with h2
      subst h1
      subst h2
      exact ⟨rfl, rfl, fun hp st2 => addChildren_of_filler hp st2⟩

/-- Witness for the amended C2 at the counterexample's concrete state. -/
theorem generateAndAddPiece_enqueues_witness :
    (⟨0, [⟨.bridgeEndFiller, ⟨-1, 61, 0, 3, 70, 7⟩, .south, 31⟩],
        [⟨.bridgeEndFiller, ⟨-1, 61, 0, 3, 70, 7⟩, .south, 31⟩],
        initialBridgeWeights, initialCastleWeights, none, none⟩ : GenState).pieces
      = ([] : List StructurePiece) ++ [⟨.bridgeEndFiller, ⟨-1, 61, 0, 3, 70, 7⟩, .south, 31⟩]
    ∧ (⟨0, [⟨.bridgeEndFiller, ⟨-1, 61, 0, 3, 70, 7⟩, .south, 31⟩],
        [⟨.bridgeEndFiller, ⟨-1, 61, 0, 3, 70, 7⟩, .south, 31⟩],
        initialBridgeWeights, initialCastleWeights, none, none⟩ : GenState).pending_children
      = ([] : List StructurePiece) ++ [⟨.bridgeEndFiller, ⟨-1, 61, 0, 3, 70, 7⟩, .south, 31⟩]
    ∧ ((⟨.bridgeEndFiller, ⟨-1, 61, 0, 3, 70, 7⟩, .south, 31⟩ : StructurePiece).piece_type
          = .bridgeEndFiller
        → ∀ st2, addChildren ⟨.bridgeEndFiller, ⟨-1, 61, 0, 3, 70, 7⟩, .south, 31⟩ st2 = st2) :=
  generateAndAddPiece_enqueues
    ⟨0, [], [], initialBridgeWeights, initialCastleWeights, none, none⟩
    0 64 0 .south 30 false _ _ (by decide)

/-! ### Inversion lemmas for the generator -/

theorem findCollision_false_iff {pieces : List StructurePiece} {box : BoundingBox} :
    findCollision pieces box = false
      ↔ ∀ q ∈ pieces, q.bounding_box.intersects box = false := by
  unfold findCollision
  rw [← Bool.not_eq_true, List.any_eq_true]
  push_neg
  constructor
  · intro h q hq
    have := h q hq
    revert this
    cases q.bounding_box.intersects box <;> simp
  · intro h q hq
    rw [h q hq]
    simp

theorem hasChildren_iff {t : PieceType} :
    hasChildren t = true ↔ t ≠ .monsterThrone ∧ t ≠ .bridgeEndFiller := by
  cases t <;> simp [hasChildren]

theorem createPiece_some {pieces : List StructurePiece} {pt : PieceType}
    {x y z : Int} {dir : Direction} {depth : Nat} {p : StructurePiece}
    (h : createPiece pieces pt x y z dir depth = some p) :
    p.piece_type = pt ∧ p.gen_depth = depth ∧ p.bounding_box.min_y > 10
    ∧ findCollision pieces p.bounding_box = false := by
  unfold createPiece at h
  dsimp only at h
  split_ifs at h with h1 h2
  · injection h with h
    subst h
    refine ⟨rfl, rfl, ?_, ?_⟩
    · simpa [isOkBox] using h1
    · simpa using h2

theorem createEndFiller_some {pieces : List StructurePiece}
    {x y z : Int} {dir : Direction} {depth : Nat} {p : StructurePiece}
    (h : createEndFiller pieces x y z dir depth = some p) :
    p.piece_type = .bridgeEndFiller ∧ p.gen_depth = depth
    ∧ p.bounding_box.min_y > 10
    ∧ findCollision pieces p.bounding_box = false := by
  unfold createEndFiller at h
  dsimp only at h
  split_ifs at h with h1 h2
  · injection h with h
    subst h
    refine ⟨rfl, rfl, ?_, ?_⟩
    · simpa [isOkBox] using h1
    · simpa using h2

theorem scanWeights_some {pieces : List StructurePiece} {prev : Option PieceType}
    {x y z : Int} {dir : Direction} {depth : Nat} :
    ∀ {target : Int} {ws ws1 : List PieceWeight} {t : PieceType} {p : StructurePiece},
    scanWeights pieces prev x y z dir depth target ws = some (ws1, t, p) →
    (∃ pw ∈ ws, pw.piece_type = t)
    ∧ createPiece pieces t x y z dir depth = some p
    ∧ ∀ w ∈ ws1, ∃ w0 ∈ ws, w.piece_type = w0.piece_type := by
  intro target ws
  induction ws generalizing target with
  | nil =>
    intro ws1 t p h
    exact absurd h (by simp [scanWeights])
  | cons pw rest ih =>
    intro ws1 t p h
    rw [scanWeights] at h
    by_cases hneg : target - (pw.weight : Int) < 0
    rotate_left
    · rw [if_neg hneg] at h
      rcases hrec : scanWeights pieces prev x y z dir depth (target - (pw.weight : Int)) rest
          with _ | trip
      · rw [hrec] at h
        exact absurd h (by simp)
      · rw [hrec] at h
        obtain ⟨ws2, t2, p2⟩ := trip
        simp only [Option.some.injEq, Prod.mk.injEq] at h
        obtain ⟨hws, ht, hp⟩ := h
        subst ht
        subst hp
        obtain ⟨⟨pw0, hpw0, hpt0⟩, hcp, hsub⟩ := ih hrec
        refine ⟨⟨pw0, List.mem_cons_of_mem _ hpw0, hpt0⟩, hcp, ?_⟩
        intro w hw
        rw [← hws] at hw
        rcases List.mem_cons.mp hw with h0 | h0
        · exact ⟨pw, List.mem_cons_self _ _, by rw [h0]⟩
        · obtain ⟨w0, hw0, hwt⟩ := hsub w h0
          exact ⟨w0, List.mem_cons_of_mem _ hw0, hwt⟩
    rw [if_pos hneg] at h
    by_cases hdo : pw.do_place depth = true
    rotate_left
    · rw [if_pos hdo] at h
      exact absurd h (by simp)
    rw [if_neg (not_not_intro hdo)] at h
    by_cases hrow : (prev == some pw.piece_type && !pw.allow_in_row) = true
    · rw [if_pos hrow] at h
      exact absurd h (by simp)
    · rw [if_neg hrow] at h
      rcases hcp : createPiece pieces pw.piece_type x y z dir depth with _ | piece
      · rw [hcp] at h
        exact absurd h (by simp)
      · rw [hcp] at h
        simp only [Option.some.injEq, Prod.mk.injEq] at h
        obtain ⟨hws, ht, hp⟩ := h
        subst ht
        subst hp
        refine ⟨⟨pw, List.mem_cons_self _ _, rfl⟩, hcp, ?_⟩
        intro w hw
        rw [← hws] at hw
        by_cases hv : ({ pw with place_count := pw.place_count + 1 } : PieceWeight).is_valid = true
        · rw [if_pos hv] at hw
          rcases List.mem_cons.mp hw with h0 | h0
          · exact ⟨pw, List.mem_cons_self _ _, by rw [h0]⟩
          · exact ⟨w, List.mem_cons_of_mem _ h0, rfl⟩
        · rw [if_neg hv] at hw
          exact ⟨w, List.mem_cons_of_mem _ hw, rfl⟩

theorem attemptLoop_weights {pieces : List StructurePiece} {x y z : Int}
    {dir : Direction} {depth total : Nat} :
    ∀ {n rng : Nat} {ws : List PieceWeight} {prev : Option PieceType},
    ∀ w ∈ (attemptLoop pieces x y z dir depth total n rng ws prev).weights,
      ∃ w0 ∈ ws, w.piece_type = w0.piece_type := by
  intro n
  induction n with
  | zero =>
    intro rng ws prev w hw
    exact ⟨w, hw, rfl⟩
  | succ k ih =>
    intro rng ws prev w hw
    rw [attemptLoop] at hw
    rcases hs : scanWeights pieces prev x y z dir depth
        ((nextInt rng total).2 : Int) ws with _ | trip
    · rw [hs] at hw
      exact ih w hw
    · rw [hs] at hw
      obtain ⟨ws1, t, piece⟩ := trip
      exact (scanWeights_some hs).2.2 w hw

theorem attemptLoop_some {pieces : List StructurePiece} {x y z : Int}
    {dir : Direction} {depth total : Nat} :
    ∀ {n rng : Nat} {ws : List PieceWeight} {prev : Option PieceType}
      {p : StructurePiece},
    (attemptLoop pieces x y z dir depth total n rng ws prev).piece = some p →
    ∃ t, (∃ pw ∈ ws, pw.piece_type = t)
      ∧ createPiece pieces t x y z dir depth = some p := by
  intro n
  induction n with
  | zero =>
    intro rng ws prev p h
    exact absurd h (by simp [attemptLoop])
  | succ k ih =>
    intro rng ws prev p h
    rw [attemptLoop] at h
    rcases hs : scanWeights pieces prev x y z dir depth
        ((nextInt rng total).2 : Int) ws with _ | trip
    · rw [hs] at h
      exact ih h
    · rw [hs] at h
      obtain ⟨ws1, t, piece⟩ := trip
      simp only [Option.some.injEq] at h
      subst h
      obtain ⟨hex, hcp, _⟩ := scanWeights_some hs
      exact ⟨t, hex, hcp⟩

theorem generatePiece_wsOK {pieces : List StructurePiece} {x y z : Int}
    {dir : Direction} {depth rng : Nat} {ws : List PieceWeight}
    {prev : Option PieceType} (hOK : wsTypesOK ws) :
    wsTypesOK (generatePiece pieces x y z dir depth rng ws prev).weights := by
  unfold generatePiece
  dsimp only
  split_ifs with hcan
  · rcases hr : (attemptLoop pieces x y z dir depth
        (updatePieceWeight ws).toNat 5 rng ws prev).piece with _ | q
    all_goals
      simp only [hr]
      intro w hw
      obtain ⟨w0, hw0, hwt⟩ := attemptLoop_weights w hw
      rw [hwt]
      exact hOK w0 hw0
  · exact hOK

theorem generatePiece_some {pieces : List StructurePiece} {x y z : Int}
    {dir : Direction} {depth rng : Nat} {ws : List PieceWeight}
    {prev : Option PieceType} {p : StructurePiece}
    (h : (generatePiece pieces x y z dir depth rng ws prev).piece = some p) :
    p.gen_depth = depth ∧ p.bounding_box.min_y > 10
    ∧ findCollision pieces p.bounding_box = false
    ∧ (p.piece_type = .bridgeEndFiller
        ∨ (depth ≤ 30 ∧ ∃ pw ∈ ws, pw.piece_type = p.piece_type)) := by
  unfold generatePiece at h
  dsimp only at h
  split_ifs at h with hcan
  · rcases hr : (attemptLoop pieces x y z dir depth
        (updatePieceWeight ws).toNat 5 rng ws prev).piece with _ | q
    · rw [hr] at h
      simp only at h
      obtain ⟨hft, hfd, hfy, hfc⟩ := createEndFiller_some h
      exact ⟨hfd, hfy, hfc, Or.inl hft⟩
    · rw [hr] at h
      simp only at h
      have hqp : some q = some p := by rw [← hr]; exact h
      injection hqp with hqp
      subst hqp
      obtain ⟨t, ⟨pw, hpw, hpt⟩, hcp⟩ := attemptLoop_some hr
      obtain ⟨hct, hcd, hcy, hcc⟩ := createPiece_some hcp
      refine ⟨hcd, hcy, hcc, Or.inr ⟨hcan.2, pw, hpw, ?_⟩⟩
      rw [hpt, hct]
  · simp only at h
    obtain ⟨hft, hfd, hfy, hfc⟩ := createEndFiller_some h
    exact ⟨hfd, hfy, hfc, Or.inl hft⟩

theorem pendingMeasure_append (a b : List StructurePiece) :
    pendingMeasure (a ++ b) = pendingMeasure a + pendingMeasure b := by
  simp [pendingMeasure]

theorem one_le_pieceMeasure (p : StructurePiece) : 1 ≤ pieceMeasure p := by
  unfold pieceMeasure
  split_ifs
  · exact Nat.one_le_pow _ _ (by norm_num)
  · exact Nat.le_refl _

theorem generateAndAddPiece_spec (st : GenState) (x y z : Int) (dir : Direction)
    (g : Nat) (isCastle : Bool) (hG : GoodState st) (hg : g ≤ 30) :
    GoodState (generateAndAddPiece st x y z dir g isCastle).1
    ∧ ∃ l, (generateAndAddPiece st x y z dir g isCastle).1.pending_children
        = st.pending_children ++ l ∧ pendingMeasure l ≤ 4 ^ (30 - g) := by
  obtain ⟨hP, hD, hPend, hBW, hCW⟩ := hG
  by_cases hb : outOfRange st x z = true
  · unfold generateAndAddPiece
    rw [if_pos hb]
    exact ⟨⟨hP, hD, hPend, hBW, hCW⟩, [], by simp, by simp [pendingMeasure]⟩
  · have hwsOKif : wsTypesOK
        (if isCastle = true then st.castle_weights else st.bridge_weights) := by
      split_ifs <;> assumption
    rcases hq : (generatePiece st.pieces x y z dir (g + 1) st.rng
        (if isCastle = true then st.castle_weights else st.bridge_weights)
        st.previous_piece).piece with _ | q
    · unfold generateAndAddPiece
      rw [if_neg hb]
      simp only [hq]
      refine ⟨⟨hP, hD, hPend, ?_, ?_⟩, [], by simp, by simp [pendingMeasure]⟩
      · split_ifs with hc
        · exact hBW
        · exact generatePiece_wsOK hBW
      · split_ifs with hc
        · exact generatePiece_wsOK hCW
        · exact hCW
    · have hfacts := generatePiece_some hq
      obtain ⟨hqd, hqy, hqc, hqt⟩ := hfacts
      have hqstart : q.piece_type ≠ .startPiece := by
        rcases hqt with hf | ⟨_, pw, hpw, hpt⟩
        · rw [hf]
          simp
        · rw [← hpt]
          exact (hwsOKif pw hpw).1
      unfold generateAndAddPiece
      rw [if_neg hb]
      simp only [hq]
      refine ⟨⟨?_, ?_, ?_, ?_, ?_⟩, [q], by simp, ?_⟩
      · rw [List.pairwise_append]
        refine ⟨hP, List.pairwise_singleton _ _, ?_⟩
        intro a ha b hb0
        rw [List.mem_singleton.mp hb0]
        exact findCollision_false_iff.mp hqc a ha
      · intro p hp
        rcases List.mem_append.mp hp with h0 | h0
        · exact hD p h0
        · rw [List.mem_singleton.mp h0]
          exact ⟨fun hst => absurd hst hqstart, fun _ => by omega⟩
      · intro p hp
        rcases List.mem_append.mp hp with h0 | h0
        · exact hPend p h0
        · rw [List.mem_singleton.mp h0]
          intro hchild
          rcases hqt with hf | ⟨hdep, _⟩
          · exact absurd hf (hasChildren_iff.mp hchild).2
          · omega
      · split_ifs with hc
        · exact hBW
        · exact generatePiece_wsOK hBW
      · split_ifs with hc
        · exact generatePiece_wsOK hCW
        · exact hCW
      · have hone : pendingMeasure [q] = pieceMeasure q := by simp [pendingMeasure]
        rw [hone]
        unfold pieceMeasure
        split_ifs with hchild
        · rcases hqt with hf | ⟨hdep, _⟩
          · exact absurd hf (hasChildren_iff.mp hchild).2
          · rw [hqd]
            rw [show 31 - (g + 1) = 30 - g by omega]
        · exact Nat.one_le_pow _ _ (by norm_num)
theorem generateChildForward_spec (st : GenState) (piece : StructurePiece)
    (offI offJ : Int) (isCastle : Bool) (hG : GoodState st)
    (hd : piece.gen_depth ≤ 30) :
    GoodState (generateChildForward st piece offI offJ isCastle)
    ∧ ∃ l, (generateChildForward st piece offI offJ isCastle).pending_children
        = st.pending_children ++ l
      ∧ pendingMeasure l ≤ 4 ^ (30 - piece.gen_depth) := by
  unfold generateChildForward
  cases hdir : piece.direction <;>
    simp only [hdir] <;>
    exact generateAndAddPiece_spec st _ _ _ _ _ _ hG hd

theorem generateChildLeft_spec (st : GenState) (piece : StructurePiece)
    (offI offJ : Int) (isCastle : Bool) (hG : GoodState st)
    (hd : piece.gen_depth ≤ 30) :
    GoodState (generateChildLeft st piece offI offJ isCastle)
    ∧ ∃ l, (generateChildLeft st piece offI offJ isCastle).pending_children
        = st.pending_children ++ l
      ∧ pendingMeasure l ≤ 4 ^ (30 - piece.gen_depth) := by
  unfold generateChildLeft
  cases hdir : piece.direction <;>
    simp only [hdir] <;>
    exact generateAndAddPiece_spec st _ _ _ _ _ _ hG hd

theorem generateChildRight_spec (st : GenState) (piece : StructurePiece)
    (offI offJ : Int) (isCastle : Bool) (hG : GoodState st)
    (hd : piece.gen_depth ≤ 30) :
    GoodState (generateChildRight st piece offI offJ isCastle)
    ∧ ∃ l, (generateChildRight st piece offI offJ isCastle).pending_children
        = st.pending_children ++ l
      ∧ pendingMeasure l ≤ 4 ^ (30 - piece.gen_depth) := by
  unfold generateChildRight
  cases hdir : piece.direction <;>
    simp only [hdir] <;>
    exact generateAndAddPiece_spec st _ _ _ _ _ _ hG hd

theorem addChildrenForCrossing_spec (piece : StructurePiece) (st : GenState)
    (hG : GoodState st) (hd : piece.gen_depth ≤ 30) :
    GoodState (addChildrenForCrossing piece st)
    ∧ ∃ l, (addChildrenForCrossing piece st).pending_children
        = st.pending_children ++ l
      ∧ pendingMeasure l ≤ 3 * 4 ^ (30 - piece.gen_depth) := by
  unfold addChildrenForCrossing
  obtain ⟨hG1, l1, e1, m1⟩ := generateChildForward_spec st piece 8 3 false hG hd
  obtain ⟨hG2, l2, e2, m2⟩ := generateChildLeft_spec _ piece 3 8 false hG1 hd
  obtain ⟨hG3, l3, e3, m3⟩ := generateChildRight_spec _ piece 3 8 false hG2 hd
  refine ⟨hG3, l1 ++ (l2 ++ l3), ?_, ?_⟩
  · rw [e3, e2, e1]
    simp [List.append_assoc]
  · rw [pendingMeasure_append, pendingMeasure_append]
    omega

theorem addChildren_no_children {p : StructurePiece}
    (hp : hasChildren p.piece_type = false) (st : GenState) :
    addChildren p st = st := by
  unfold addChildren
  cases ht : p.piece_type <;>
    first
      | rfl
      | (rw [ht] at hp; simp [hasChildren] at hp)

theorem addChildren_spec (piece : StructurePiece) (st : GenState) (hG : GoodState st)
    (hd : hasChildren piece.piece_type = true → piece.gen_depth ≤ 30) :
    GoodState (addChildren piece st)
    ∧ ∃ l, (addChildren piece st).pending_children = st.pending_children ++ l
      ∧ pendingMeasure l ≤ 3 * 4 ^ (30 - piece.gen_depth) := by
  by_cases hch : hasChildren piece.piece_type = true
  case neg =>
    have hf : hasChildren piece.piece_type = false := by
      revert hch
      cases hasChildren piece.piece_type <;> simp
    rw [addChildren_no_children hf st]
    exact ⟨hG, [], by simp, by simp [pendingMeasure]⟩
  case pos =>
    have hd30 := hd hch
    unfold addChildren
    cases ht : piece.piece_type
    case bridgeStraight =>
      obtain ⟨hG1, l1, e1, m1⟩ := generateChildForward_spec st piece 1 3 false hG hd30
      exact ⟨hG1, l1, e1, by omega⟩
    case bridgeCrossing =>
      exact addChildrenForCrossing_spec piece st hG hd30
    case startPiece =>
      exact addChildrenForCrossing_spec piece st hG hd30
    case roomCrossing =>
      obtain ⟨hG1, l1, e1, m1⟩ := generateChildForward_spec st piece 2 0 false hG hd30
      obtain ⟨hG2, l2, e2, m2⟩ := generateChildLeft_spec _ piece 0 2 false hG1 hd30
      obtain ⟨hG3, l3, e3, m3⟩ := generateChildRight_spec _ piece 0 2 false hG2 hd30
      refine ⟨hG3, l1 ++ (l2 ++ l3), ?_, ?_⟩
      · rw [e3, e2, e1]
        simp [List.append_assoc]
      · rw [pendingMeasure_append, pendingMeasure_append]
        omega
    case stairsRoom =>
      obtain ⟨hG1, l1, e1, m1⟩ := generateChildRight_spec st piece 6 2 false hG hd30
      exact ⟨hG1, l1, e1, by omega⟩
    case castleEntrance =>
      obtain ⟨hG1, l1, e1, m1⟩ := generateChildForward_spec st piece 5 3 true hG hd30
      exact ⟨hG1, l1, e1, by omega⟩
    case castleSmallCorridor =>
      obtain ⟨hG1, l1, e1, m1⟩ := generateChildForward_spec st piece 1 0 true hG hd30
      exact ⟨hG1, l1, e1, by omega⟩
    case castleSmallCorridorCrossing =>
      obtain ⟨hG1, l1, e1, m1⟩ := generateChildForward_spec st piece 1 0 true hG hd30
      obtain ⟨hG2, l2, e2, m2⟩ := generateChildLeft_spec _ piece 0 1 true hG1 hd30
      obtain ⟨hG3, l3, e3, m3⟩ := generateChildRight_spec _ piece 0 1 true hG2 hd30
      refine ⟨hG3, l1 ++ (l2 ++ l3), ?_, ?_⟩
      · rw [e3, e2, e1]
        simp [List.append_assoc]
      · rw [pendingMeasure_append, pendingMeasure_append]
        omega
    case castleSmallCorridorRightTurn =>
      obtain ⟨hG1, l1, e1, m1⟩ := generateChildRight_spec st piece 0 1 true hG hd30
      exact ⟨hG1, l1, e1, by omega⟩
    case castleSmallCorridorLeftTurn =>
      obtain ⟨hG1, l1, e1, m1⟩ := generateChildLeft_spec st piece 0 1 true hG hd30
      exact ⟨hG1, l1, e1, by omega⟩
    case castleCorridorStairs =>
      obtain ⟨hG1, l1, e1, m1⟩ := generateChildForward_spec st piece 1 0 true hG hd30
      exact ⟨hG1, l1, e1, by omega⟩
    case castleCorridorTBalcony =>
      have hG0 : GoodState { st with rng := (nextInt st.rng 8).1 } := hG
      obtain ⟨hG1, l1, e1, m1⟩ := generateChildLeft_spec
        { st with rng := (nextInt st.rng 8).1 } piece 0
        (match piece.direction with
          | .west | .north => (5 : Int)
          | _ => 1)
        (decide ((nextInt st.rng 8).2 > 0)) hG0 hd30
      set stL := generateChildLeft { st with rng := (nextInt st.rng 8).1 } piece 0
        (match piece.direction with
          | .west | .north => (5 : Int)
          | _ => 1)
        (decide ((nextInt st.rng 8).2 > 0)) with hstL
      have hG1a : GoodState { stL with rng := (nextInt stL.rng 8).1 } := hG1
      obtain ⟨hG2, l2, e2, m2⟩ := generateChildRight_spec
        { stL with rng := (nextInt stL.rng 8).1 } piece 0
        (match piece.direction with
          | .west | .north => (5 : Int)
          | _ => 1)
        (decide ((nextInt stL.rng 8).2 > 0)) hG1a hd30
      refine ⟨hG2, l1 ++ l2, ?_, ?_⟩
      · rw [e2]
        show stL.pending_children ++ l2 = st.pending_children ++ (l1 ++ l2)
        rw [hstL, e1]
        simp [List.append_assoc]
      · rw [pendingMeasure_append]
        omega
    case castleStalkRoom =>
      obtain ⟨hG1, l1, e1, m1⟩ := generateChildForward_spec st piece 5 3 true hG hd30
      obtain ⟨hG2, l2, e2, m2⟩ := generateChildForward_spec _ piece 5 11 true hG1 hd30
      refine ⟨hG2, l1 ++ l2, ?_, ?_⟩
      · rw [e2, e1]
        simp [List.append_assoc]
      · rw [pendingMeasure_append]
        omega
    case monsterThrone =>
      rw [ht] at hch
      simp [hasChildren] at hch
    case bridgeEndFiller =>
      rw [ht] at hch
      simp [hasChildren] at hch
theorem pendingMeasure_eraseIdx :
    ∀ (l : List StructurePiece) (i : Nat) (p : StructurePiece),
    l.get? i = some p →
    pieceMeasure p + pendingMeasure (l.eraseIdx i) = pendingMeasure l := by
  intro l
  induction l with
  | nil =>
    intro i p h
    exact absurd h (by simp)
  | cons a t ih =>
    intro i p h
    cases i with
    | zero =>
      simp only [List.get?_cons_zero, Option.some.injEq] at h
      subst h
      simp [pendingMeasure]
    | succ j =>
      simp only [List.get?_cons_succ] at h
      have hrec := ih j p h
      simp only [List.eraseIdx_cons_succ]
      have hc : pendingMeasure (a :: t.eraseIdx j)
          = pieceMeasure a + pendingMeasure (t.eraseIdx j) := by
        simp [pendingMeasure]
      have hc2 : pendingMeasure (a :: t) = pieceMeasure a + pendingMeasure t := by
        simp [pendingMeasure]
      omega

theorem mainLoop_good : ∀ (n : Nat) (st : GenState),
    GoodState st → GoodState (mainLoop n st) := by
  intro n
  induction n with
  | zero =>
    intro st h
    exact h
  | succ k ih =>
    intro st h
    rw [mainLoop]
    by_cases hemp : st.pending_children.isEmpty = true
    · rw [if_pos hemp]
      exact h
    · rw [if_neg hemp]
      dsimp only
      rcases hg : st.pending_children.get?
          (nextInt st.rng st.pending_children.length).2 with _ | piece
      · exact h
      · show GoodState (mainLoop k _)
        apply ih
        obtain ⟨hP, hD, hPend, hBW, hCW⟩ := h
        have hG1 : GoodState
            { st with
              rng := (nextInt st.rng st.pending_children.length).1
              pending_children := st.pending_children.eraseIdx
                (nextInt st.rng st.pending_children.length).2 } :=
          ⟨hP, hD, fun p hp hc => hPend p (List.eraseIdx_subset _ _ hp) hc, hBW, hCW⟩
        exact (addChildren_spec piece _ hG1 (hPend piece (List.get?_mem hg))).1

theorem mainLoop_complete : ∀ (n : Nat) (st : GenState), GoodState st →
    pendingMeasure st.pending_children ≤ n →
    (mainLoop n st).pending_children = [] := by
  intro n
  induction n with
  | zero =>
    intro st _ hm
    rw [mainLoop]
    rcases hl : st.pending_children with _ | ⟨a, l⟩
    · rfl
    · exfalso
      rw [hl] at hm
      have h1 := one_le_pieceMeasure a
      have h2 : pendingMeasure (a :: l) = pieceMeasure a + pendingMeasure l := by
        simp [pendingMeasure]
      omega
  | succ k ih =>
    intro st hG hm
    rw [mainLoop]
    by_cases hemp : st.pending_children.isEmpty = true
    · rw [if_pos hemp]
      exact List.isEmpty_iff.mp hemp
    · rw [if_neg hemp]
      dsimp only
      have hne : st.pending_children ≠ [] := fun h0 => hemp (by rw [h0]; rfl)
      have hlen : st.pending_children.length ≠ 0 :=
        fun h0 => hne (List.length_eq_zero.mp h0)
      have hidx := nextInt_snd_lt st.rng st.pending_children.length hlen
      rcases hg : st.pending_children.get?
          (nextInt st.rng st.pending_children.length).2 with _ | piece
      · exfalso
        have := List.get?_eq_none.mp hg
        omega
      · show (mainLoop k _).pending_children = []
        have hmem := List.get?_mem hg
        obtain ⟨hP, hD, hPend, hBW, hCW⟩ := hG
        have hG1 : GoodState
            { st with
              rng := (nextInt st.rng st.pending_children.length).1
              pending_children := st.pending_children.eraseIdx
                (nextInt st.rng st.pending_children.length).2 } :=
          ⟨hP, hD, fun p hp hc => hPend p (List.eraseIdx_subset _ _ hp) hc, hBW, hCW⟩
        have herase := pendingMeasure_eraseIdx st.pending_children _ piece hg
        by_cases hch : hasChildren piece.piece_type = true
        · have hg30 := hPend piece hmem hch
          obtain ⟨hGA, l, el, ml⟩ := addChildren_spec piece _ hG1 (hPend piece hmem)
          apply ih _ hGA
          rw [el, pendingMeasure_append]
          dsimp only
          have hpm : pieceMeasure piece = 4 * 4 ^ (30 - piece.gen_depth) := by
            unfold pieceMeasure
            rw [if_pos hch, show 31 - piece.gen_depth = (30 - piece.gen_depth) + 1 by omega]
            ring
          have hpow : 1 ≤ 4 ^ (30 - piece.gen_depth) := Nat.one_le_pow _ _ (by norm_num)
          omega
        · have hf : hasChildren piece.piece_type = false := by
            revert hch
            cases hasChildren piece.piece_type <;> simp
          rw [addChildren_no_children hf]
          apply ih _ hG1
          dsimp only
          have hpm : pieceMeasure piece = 1 := by
            unfold pieceMeasure
            rw [if_neg hch]
          omega

theorem startState_good (rng : Nat) (sp : StructurePiece)
    (hty : sp.piece_type = .startPiece) (hdep : sp.gen_depth = 0) :
    GoodState ⟨rng, [sp], [], initialBridgeWeights, initialCastleWeights,
      none, some sp.bounding_box⟩ := by
  refine ⟨List.pairwise_singleton _ _, ?_, ?_, ?_, ?_⟩
  · intro p hp
    rw [List.mem_singleton.mp hp]
    exact ⟨fun _ => hdep, fun hne => absurd hty hne⟩
  · intro p hp
    exact absurd hp (List.not_mem_nil p)
  · show wsTypesOK initialBridgeWeights
    unfold wsTypesOK
    decide
  · show wsTypesOK initialCastleWeights
    unfold wsTypesOK
    decide

theorem startPieceOf_depth (worldSeed cx cz : Int) :
    (startPieceOf worldSeed cx cz).gen_depth = 0 := rfl

theorem startPieceOf_type (worldSeed cx cz : Int) :
    (startPieceOf worldSeed cx cz).piece_type = .startPiece := rfl

theorem initState_spec (worldSeed cx cz : Int) :
    GoodState (initState worldSeed cx cz)
    ∧ pendingMeasure (initState worldSeed cx cz).pending_children ≤ 3 * 4 ^ 30 := by
  unfold initState
  obtain ⟨hG1, l1, e1, m1⟩ := addChildrenForCrossing_spec
    (startPieceOf worldSeed cx cz)
    ⟨(nextInt (setLargeFeatureSeed worldSeed cx cz) 4).1,
      [startPieceOf worldSeed cx cz], [], initialBridgeWeights,
      initialCastleWeights, none, some (startPieceOf worldSeed cx cz).bounding_box⟩
    (startState_good _ _ (startPieceOf_type _ _ _) (startPieceOf_depth _ _ _))
    (by rw [startPieceOf_depth]; exact Nat.zero_le 30)
  refine ⟨hG1, ?_⟩
  rw [e1]
  have hnil : pendingMeasure (([] : List StructurePiece) ++ l1) = pendingMeasure l1 := by
    simp [pendingMeasure]
  rw [hnil]
  rw [startPieceOf_depth] at m1
  exact m1

theorem intersects_false_symm {a b : BoundingBox}
    (h : a.intersects b = false) : b.intersects a = false := by
  simp only [BoundingBox.intersects, decide_eq_false_iff_not] at h ⊢
  omega

/-! ### Claims about whole generator runs -/

/-- C6: after a generator run (any fuel, any world seed, any chunk), the
bounding boxes of the output pieces are pairwise non-intersecting, in both
orientations of each pair. -/
theorem generate_no_overlap (fuel : Nat) (worldSeed cx cz : Int) :
    List.Pairwise (fun a b : StructurePiece =>
      a.bounding_box.intersects b.bounding_box = false
      ∧ b.bounding_box.intersects a.bounding_box = false)
      (generate fuel worldSeed cx cz) := by
  have h := (mainLoop_good fuel _ (initState_spec worldSeed cx cz).1).1
  exact List.Pairwise.imp (fun hab => ⟨hab, intersects_false_symm hab⟩) h

/-- C7: in every generator run, the start piece has generation depth 0 and
every other placed piece has generation depth at most 31. -/
theorem generate_depth_bound (fuel : Nat) (worldSeed cx cz : Int) :
    ∀ p ∈ generate fuel worldSeed cx cz,
      (p.piece_type = .startPiece → p.gen_depth = 0)
      ∧ (p.piece_type ≠ .startPiece → p.gen_depth ≤ 31) :=
  (mainLoop_good fuel _ (initState_spec worldSeed cx cz).1).2.1

/-- Witness for C7: the start piece of the run at seed 0, chunk `(0, 0)`. -/
theorem generate_depth_bound_witness :
    (⟨.startPiece, ⟨2, 64, 2, 20, 73, 20⟩, .south, 0⟩ : StructurePiece)
        ∈ generate 0 0 0 0
    ∧ (⟨.startPiece, ⟨2, 64, 2, 20, 73, 20⟩, .south, 0⟩
        : StructurePiece).gen_depth = 0 :=
  ⟨by decide, (generate_depth_bound 0 0 0 0 _ (by decide)).1 rfl⟩

/-- C9: for every world seed and chunk there is enough fuel for the main loop
to drain the pending-children list completely, so `generate` terminates with a
finite piece list. -/
theorem generate_terminates (worldSeed cx cz : Int) :
    ∃ fuel : Nat, (generateState fuel worldSeed cx cz).pending_children = [] := by
  obtain ⟨hG, hm⟩ := initState_spec worldSeed cx cz
  exact ⟨3 * 4 ^ 30, mainLoop_complete _ _ hG hm⟩
/-! ### Lemmas for the quad-crossing detector -/

theorem isDirectlyAdjacentX_iff {b1 b2 : BoundingBox} :
    isDirectlyAdjacentX b1 b2 = true ↔
      b1.min_z = b2.min_z ∧ b1.max_z = b2.max_z ∧ b1.min_y = b2.min_y
      ∧ b1.max_y = b2.max_y
      ∧ (b2.min_x = b1.max_x + 1 ∨ b1.min_x = b2.max_x + 1) := by
  unfold isDirectlyAdjacentX
  split_ifs with h1 h2 h3 h4 <;>
    simp_all [Bool.or_eq_true, bne_iff_ne, beq_iff_eq] <;>
    tauto

theorem isDirectlyAdjacentZ_iff {b1 b2 : BoundingBox} :
    isDirectlyAdjacentZ b1 b2 = true ↔
      b1.min_x = b2.min_x ∧ b1.max_x = b2.max_x ∧ b1.min_y = b2.min_y
      ∧ b1.max_y = b2.max_y
      ∧ (b2.min_z = b1.max_z + 1 ∨ b1.min_z = b2.max_z + 1) := by
  unfold isDirectlyAdjacentZ
  split_ifs with h1 h2 h3 h4 <;>
    simp_all [Bool.or_eq_true, bne_iff_ne, beq_iff_eq] <;>
    tauto

theorem center_x_of_span {p : StructurePiece} (h : span19 p) :
    (p.get_center).1 = p.bounding_box.min_x + 9 := by
  obtain ⟨hx, _⟩ := h
  unfold StructurePiece.get_center
  dsimp only
  rw [show p.bounding_box.min_x + p.bounding_box.max_x
      = 2 * (p.bounding_box.min_x + 9) by omega]
  exact Int.mul_fdiv_cancel_left _ (by norm_num)

theorem center_z_of_span {p : StructurePiece} (h : span19 p) :
    (p.get_center).2.2 = p.bounding_box.min_z + 9 := by
  obtain ⟨_, hz⟩ := h
  unfold StructurePiece.get_center
  dsimp only
  rw [show p.bounding_box.min_z + p.bounding_box.max_z
      = 2 * (p.bounding_box.min_z + 9) by omega]
  exact Int.mul_fdiv_cancel_left _ (by norm_num)

theorem foldl_neighbors_inv (corner : StructurePiece) (allC : List StructurePiece) :
    ∀ (l : List StructurePiece), (∀ c ∈ l, c ∈ allC) →
    ∀ (acc : Option StructurePiece × Option StructurePiece),
    (∀ r0, acc.1 = some r0 → r0 ∈ allC ∧ rightOK corner r0) →
    (∀ d0, acc.2 = some d0 → d0 ∈ allC ∧ downOK corner d0) →
    (∀ r0, (l.foldl (updateNeighbors corner) acc).1 = some r0
      → r0 ∈ allC ∧ rightOK corner r0)
    ∧ (∀ d0, (l.foldl (updateNeighbors corner) acc).2 = some d0
      → d0 ∈ allC ∧ downOK corner d0) := by
  intro l
  induction l with
  | nil =>
    intro _ acc h1 h2
    exact ⟨h1, h2⟩
  | cons c t ih =>
    intro hmem acc h1 h2
    rw [List.foldl_cons]
    have hcmem : c ∈ allC := hmem c (List.mem_cons_self _ _)
    refine ih (fun x hx => hmem x (List.mem_cons_of_mem _ hx)) _ ?_ ?_
    · intro r0 hr0
      unfold updateNeighbors at hr0
      by_cases hceq : (c == corner) = true
      · rw [if_pos hceq] at hr0
        exact h1 r0 hr0
      · rw [if_neg hceq] at hr0
        dsimp only at hr0
        by_cases hguard : (decide (0 < (c.get_center).1 - (corner.get_center).1)
            && isDirectlyAdjacentX corner.bounding_box c.bounding_box) = true
        · rw [if_pos hguard] at hr0
          obtain ⟨hdx, hadj⟩ := Bool.and_eq_true_iff.mp hguard
          have hOKc : rightOK corner c := ⟨hadj, of_decide_eq_true hdx⟩
          rcases hacc : acc.1 with _ | r1
          · rw [hacc] at hr0
            injection hr0 with hr0
            subst hr0
            exact ⟨hcmem, hOKc⟩
          · rw [hacc] at hr0
            dsimp only at hr0
            split_ifs at hr0
            · injection hr0 with hr0
              subst hr0
              exact ⟨hcmem, hOKc⟩
            · injection hr0 with hr0
              rw [← hr0]
              exact h1 r1 hacc
        · rw [if_neg hguard] at hr0
          exact h1 r0 hr0
    · intro d0 hd0
      unfold updateNeighbors at hd0
      by_cases hceq : (c == corner) = true
      · rw [if_pos hceq] at hd0
        exact h2 d0 hd0
      · rw [if_neg hceq] at hd0
        dsimp only at hd0
        by_cases hguard : (decide (0 < (c.get_center).2.2 - (corner.get_center).2.2)
            && isDirectlyAdjacentZ corner.bounding_box c.bounding_box) = true
        · rw [if_pos hguard] at hd0
          obtain ⟨hdz, hadj⟩ := Bool.and_eq_true_iff.mp hguard
          have hOKc : downOK corner c := ⟨hadj, of_decide_eq_true hdz⟩
          rcases hacc : acc.2 with _ | d1
          · rw [hacc] at hd0
            injection hd0 with hd0
            subst hd0
            exact ⟨hcmem, hOKc⟩
          · rw [hacc] at hd0
            dsimp only at hd0
            split_ifs at hd0
            · injection hd0 with hd0
              subst hd0
              exact ⟨hcmem, hOKc⟩
            · injection hd0 with hd0
              rw [← hd0]
              exact h2 d1 hacc
        · rw [if_neg hguard] at hd0
          exact h2 d0 hd0

theorem findQuadFromCorner_some {corner : StructurePiece}
    {allC : List StructurePiece} {q : QuadCrossing}
    (h : findQuadFromCorner corner allC = some q) :
    ∃ r d diag : StructurePiece,
      (r ∈ allC ∧ rightOK corner r)
      ∧ (d ∈ allC ∧ downOK corner d)
      ∧ diag ∈ allC
      ∧ isDirectlyAdjacentZ r.bounding_box diag.bounding_box = true
      ∧ isDirectlyAdjacentX d.bounding_box diag.bounding_box = true
      ∧ q.crossings = [corner, r, d, diag]
      ∧ q.bounding_box =
        ⟨min (min corner.bounding_box.min_x r.bounding_box.min_x)
            (min d.bounding_box.min_x diag.bounding_box.min_x),
          min (min corner.bounding_box.min_y r.bounding_box.min_y)
            (min d.bounding_box.min_y diag.bounding_box.min_y),
          min (min corner.bounding_box.min_z r.bounding_box.min_z)
            (min d.bounding_box.min_z diag.bounding_box.min_z),
          max (max corner.bounding_box.max_x r.bounding_box.max_x)
            (max d.bounding_box.max_x diag.bounding_box.max_x),
          max (max corner.bounding_box.max_y r.bounding_box.max_y)
            (max d.bounding_box.max_y diag.bounding_box.max_y),
          max (max corner.bounding_box.max_z r.bounding_box.max_z)
            (max d.bounding_box.max_z diag.bounding_box.max_z)⟩ := by
  unfold findQuadFromCorner at h
  rcases hnb : allC.foldl (updateNeighbors corner) (none, none) with ⟨or, od⟩
  rw [hnb] at h
  have hinv := foldl_neighbors_inv corner allC allC (fun c hc => hc) (none, none)
    (by simp) (by simp)
  rcases or with _ | r
  · exact absurd h (by simp)
  · rcases od with _ | d
    · exact absurd h (by simp)
    · have hr := hinv.1 r (by rw [hnb])
      have hd := hinv.2 d (by rw [hnb])
      dsimp only at h
      rcases hfind : allC.find? (fun c =>
          !(c == corner || c == r || c == d) &&
          isDirectlyAdjacentZ r.bounding_box c.bounding_box &&
          isDirectlyAdjacentX d.bounding_box c.bounding_box) with _ | diag
      · rw [hfind] at h
        exact absurd h (by simp)
      · rw [hfind] at h
        simp only [Option.some.injEq] at h
        subst h
        have hgm := List.mem_of_find?_eq_some hfind
        have hpred := List.find?_some hfind
        obtain ⟨hpred1, hpx⟩ := Bool.and_eq_true_iff.mp hpred
        obtain ⟨_, hpz⟩ := Bool.and_eq_true_iff.mp hpred1
        exact ⟨r, d, diag, hr, hd, hgm, hpz, hpx, rfl, rfl⟩

theorem findQuadCrossings_mem {pieces : List StructurePiece} {q : QuadCrossing}
    (h : q ∈ findQuadCrossings pieces) :
    ∃ c ∈ pieces, findQuadFromCorner c pieces = some q := by
  unfold findQuadCrossings at h
  split_ifs at h with hlen
  · exact absurd h (List.not_mem_nil q)
  · have haux : ∀ (l : List StructurePiece) (acc : List QuadCrossing),
        (∀ x ∈ acc, ∃ c ∈ pieces, findQuadFromCorner c pieces = some x) →
        ∀ x ∈ l.foldl (fun acc c =>
          match findQuadFromCorner c pieces with
          | some q0 => if isDuplicateQuad q0 acc then acc else acc ++ [q0]
          | none => acc) acc,
        (∀ c ∈ l, c ∈ pieces) →
        ∃ c ∈ pieces, findQuadFromCorner c pieces = some x := by
      intro l
      induction l with
      | nil =>
        intro acc hacc x hx _
        exact hacc x hx
      | cons a t ih =>
        intro acc hacc x hx hmem
        rw [List.foldl_cons] at hx
        refine ih _ ?_ x hx (fun c hc => hmem c (List.mem_cons_of_mem _ hc))
        intro y hy
        rcases hfa : findQuadFromCorner a pieces with _ | q0
        · rw [hfa] at hy
          exact hacc y hy
        · rw [hfa] at hy
          dsimp only at hy
          split_ifs at hy
          · exact hacc y hy
          · rcases List.mem_append.mp hy with h0 | h0
            · exact hacc y h0
            · rw [List.mem_singleton.mp h0]
              exact ⟨a, hmem a (List.mem_cons_self _ _), hfa⟩
    exact haux pieces [] (by simp) q h (fun c hc => hc)

/-- C8: on any input list of pieces whose boxes span 19 blocks on both the
`x` and `z` axes, every cluster returned by `find_quad_crossings` has exactly
four pairwise-distinct members and its combined bounding box spans
`max - min = 37` on both the `x` and `z` axes. -/
theorem findQuadCrossings_shape (pieces : List StructurePiece)
    (hspan : ∀ p ∈ pieces, span19 p)
    (q : QuadCrossing) (hq : q ∈ findQuadCrossings pieces) :
    q.crossings.length = 4
    ∧ List.Pairwise (fun a b : StructurePiece => a ≠ b) q.crossings
    ∧ q.bounding_box.max_x - q.bounding_box.min_x = 37
    ∧ q.bounding_box.max_z - q.bounding_box.min_z = 37 := by
  obtain ⟨c, hcmem, hfq⟩ := findQuadCrossings_mem hq
  obtain ⟨r, d, diag, ⟨hrm, hrOK⟩, ⟨hdm, hdOK⟩, hgm, hz, hx, hcs, hbox⟩ :=
    findQuadFromCorner_some hfq
  obtain ⟨scx, scz⟩ := hspan c hcmem
  obtain ⟨srx, srz⟩ := hspan r hrm
  obtain ⟨sdx, sdz⟩ := hspan d hdm
  obtain ⟨sgx, sgz⟩ := hspan diag hgm
  obtain ⟨e1, e2, _, _, hrx⟩ := isDirectlyAdjacentX_iff.mp hrOK.1
  obtain ⟨f1, f2, _, _, hdz⟩ := isDirectlyAdjacentZ_iff.mp hdOK.1
  obtain ⟨g1, g2, _, _, hgz⟩ := isDirectlyAdjacentZ_iff.mp hz
  obtain ⟨k1, k2, _, _, hkx⟩ := isDirectlyAdjacentX_iff.mp hx
  have hcx : 0 < r.bounding_box.min_x - c.bounding_box.min_x := by
    have h0 := hrOK.2
    rw [center_x_of_span ⟨srx, srz⟩, center_x_of_span ⟨scx, scz⟩] at h0
    omega
  have hcz : 0 < d.bounding_box.min_z - c.bounding_box.min_z := by
    have h0 := hdOK.2
    rw [center_z_of_span ⟨sdx, sdz⟩, center_z_of_span ⟨scx, scz⟩] at h0
    omega
  have hr1 : r.bounding_box.min_x = c.bounding_box.max_x + 1 := by omega
  have hd1 : d.bounding_box.min_z = c.bounding_box.max_z + 1 := by omega
  have hg1 : diag.bounding_box.min_z = c.bounding_box.max_z + 1 := by omega
  have hg2 : diag.bounding_box.min_x = c.bounding_box.max_x + 1 := by omega
  have ncr : c ≠ r := by
    intro he
    rw [he] at hcx
    omega
  have ncd : c ≠ d := by
    intro he
    rw [he] at hcz
    omega
  have ncg : c ≠ diag := by
    intro he
    rw [he] at hg2
    omega
  have nrd : r ≠ d := by
    intro he
    rw [he] at hr1
    omega
  have nrg : r ≠ diag := by
    intro he
    rw [← he] at hg1
    omega
  have ndg : d ≠ diag := by
    intro he
    rw [← he] at hg2
    omega
  refine ⟨by simp [hcs], ?_, ?_, ?_⟩
  · rw [hcs]
    refine List.Pairwise.cons ?_ (List.Pairwise.cons ?_
      (List.Pairwise.cons ?_ (List.pairwise_singleton _ _)))
    · intro b hb
      rcases List.mem_cons.mp hb with h0 | h0
      · rw [h0]; exact ncr
      rcases List.mem_cons.mp h0 with h1 | h1
      · rw [h1]; exact ncd
      · rw [List.mem_singleton.mp h1]; exact ncg
    · intro b hb
      rcases List.mem_cons.mp hb with h0 | h0
      · rw [h0]; exact nrd
      · rw [List.mem_singleton.mp h0]; exact nrg
    · intro b hb
      rw [List.mem_singleton.mp hb]
      exact ndg
  · rw [hbox]
    dsimp only
    omega
  · rw [hbox]
    dsimp only
    omega

/-- Witness for C8: a concrete 2-by-2 arrangement of four 19-by-19 crossing
boxes on which the detector returns exactly the expected cluster. -/
theorem findQuadCrossings_shape_witness :
    (⟨[⟨.bridgeCrossing, ⟨0, 64, 0, 18, 73, 18⟩, .south, 1⟩,
        ⟨.bridgeCrossing, ⟨19, 64, 0, 37, 73, 18⟩, .south, 1⟩,
        ⟨.bridgeCrossing, ⟨0, 64, 19, 18, 73, 37⟩, .south, 1⟩,
        ⟨.bridgeCrossing, ⟨19, 64, 19, 37, 73, 37⟩, .south, 1⟩],
      (18, 68, 18), ⟨0, 64, 0, 37, 73, 37⟩⟩ : QuadCrossing).crossings.length = 4
    ∧ List.Pairwise (fun a b : StructurePiece => a ≠ b)
      (⟨[⟨.bridgeCrossing, ⟨0, 64, 0, 18, 73, 18⟩, .south, 1⟩,
        ⟨.bridgeCrossing, ⟨19, 64, 0, 37, 73, 18⟩, .south, 1⟩,
        ⟨.bridgeCrossing, ⟨0, 64, 19, 18, 73, 37⟩, .south, 1⟩,
        ⟨.bridgeCrossing, ⟨19, 64, 19, 37, 73, 37⟩, .south, 1⟩],
      (18, 68, 18), ⟨0, 64, 0, 37, 73, 37⟩⟩ : QuadCrossing).crossings
    ∧ ((⟨[⟨.bridgeCrossing, ⟨0, 64, 0, 18, 73, 18⟩, .south, 1⟩,
        ⟨.bridgeCrossing, ⟨19, 64, 0, 37, 73, 18⟩, .south, 1⟩,
        ⟨.bridgeCrossing, ⟨0, 64, 19, 18, 73, 37⟩, .south, 1⟩,
        ⟨.bridgeCrossing, ⟨19, 64, 19, 37, 73, 37⟩, .south, 1⟩],
      (18, 68, 18), ⟨0, 64, 0, 37, 73, 37⟩⟩ : QuadCrossing)).bounding_box.max_x
      - (⟨[⟨.bridgeCrossing, ⟨0, 64, 0, 18, 73, 18⟩, .south, 1⟩,
        ⟨.bridgeCrossing, ⟨19, 64, 0, 37, 73, 18⟩, .south, 1⟩,
        ⟨.bridgeCrossing, ⟨0, 64, 19, 18, 73, 37⟩, .south, 1⟩,
        ⟨.bridgeCrossing, ⟨19, 64, 19, 37, 73, 37⟩, .south, 1⟩],
      (18, 68, 18), ⟨0, 64, 0, 37, 73, 37⟩⟩ : QuadCrossing).bounding_box.min_x = 37
    ∧ ((⟨[⟨.bridgeCrossing, ⟨0, 64, 0, 18, 73, 18⟩, .south, 1⟩,
        ⟨.bridgeCrossing, ⟨19, 64, 0, 37, 73, 18⟩, .south, 1⟩,
        ⟨.bridgeCrossing, ⟨0, 64, 19, 18, 73, 37⟩, .south, 1⟩,
        ⟨.bridgeCrossing, ⟨19, 64, 19, 37, 73, 37⟩, .south, 1⟩],
      (18, 68, 18), ⟨0, 64, 0, 37, 73, 37⟩⟩ : QuadCrossing)).bounding_box.max_z
      - (⟨[⟨.bridgeCrossing, ⟨0, 64, 0, 18, 73, 18⟩, .south, 1⟩,
        ⟨.bridgeCrossing, ⟨19, 64, 0, 37, 73, 18⟩, .south, 1⟩,
        ⟨.bridgeCrossing, ⟨0, 64, 19, 18, 73, 37⟩, .south, 1⟩,
        ⟨.bridgeCrossing, ⟨19, 64, 19, 37, 73, 37⟩, .south, 1⟩],
      (18, 68, 18), ⟨0, 64, 0, 37, 73, 37⟩⟩ : QuadCrossing).bounding_box.min_z = 37 :=
  findQuadCrossings_shape
    [⟨.bridgeCrossing, ⟨0, 64, 0, 18, 73, 18⟩, .south, 1⟩,
      ⟨.bridgeCrossing, ⟨19, 64, 0, 37, 73, 18⟩, .south, 1⟩,
      ⟨.bridgeCrossing, ⟨0, 64, 19, 18, 73, 37⟩, .south, 1⟩,
      ⟨.bridgeCrossing, ⟨19, 64, 19, 37, 73, 37⟩, .south, 1⟩]
    (by unfold span19; decide) _ (by decide)

end Fortress
